import Mathlib

/-!
Verification development for the Figma design-asset extraction engine.

The definitions below are a shallow embedding of the extraction code:
the token extractor (colors, typography, spacing, effects), the component
classifier and variant grouper, and the layout analyzer with its grid
detector.  Python dictionaries keyed by strings are modelled as ordered
association lists with Python assignment semantics (update in place when
the key exists, append otherwise); Python floats are modelled as exact
rationals (every comparison the code performs is exact at the boundary
values involved); Python sets are modelled by lists carrying an explicit
iteration order, which is abstracted wherever the language leaves it
unspecified.  Node names are ASCII in all inputs considered, so Python
lower()/upper() are modelled by ASCII case mapping.
-/

namespace FigmaExtract

/-! ### Basic helpers mirroring Python primitives -/

/-- ASCII lowercasing of one character, modelling Python lower() on the
ASCII names the extractor sees. -/
def pyLowerChar (c : Char) : Char :=
  if 65 ≤ c.toNat ∧ c.toNat ≤ 90 then Char.ofNat (c.toNat + 32) else c

/-- ASCII lowercasing of a string, modelling Python str.lower(). -/
def pyLower (s : String) : String := String.mk (s.data.map pyLowerChar)

/-- ASCII uppercasing of one character, modelling Python upper(). -/
def pyUpperChar (c : Char) : Char :=
  if 97 ≤ c.toNat ∧ c.toNat ≤ 122 then Char.ofNat (c.toNat - 32) else c

/-- ASCII uppercasing of a string, modelling Python str.upper(). -/
def pyUpper (s : String) : String := String.mk (s.data.map pyUpperChar)

/-- Whether the list pat occurs at the head of the list s. -/
def isPrefixList : List Char → List Char → Bool
  | [], _ => true
  | _ :: _, [] => false
  | a :: as, b :: bs => a == b && isPrefixList as bs

/-- Whether pat occurs as a contiguous sublist of s. -/
def containsSubList (pat : List Char) : List Char → Bool
  | [] => isPrefixList pat []
  | s@(_ :: rest) => isPrefixList pat s || containsSubList pat rest

/-- Python substring containment, the operator pat in s on strings. -/
def containsSub (s pat : String) : Bool := containsSubList pat.data s.data

/-- A whitespace character as stripped by Python str.strip(). -/
def isStripChar (c : Char) : Bool :=
  c = ' ' || c = '\t' || c = '\n' || c = '\r'

/-- Python str.strip() on a character list. -/
def stripL (l : List Char) : List Char :=
  ((l.dropWhile isStripChar).reverse.dropWhile isStripChar).reverse

/-- Python str.strip() on a string. -/
def pyStrip (s : String) : String := String.mk (stripL s.data)

/-- Python int() truncation toward zero on an exact rational. -/
def pyInt (q : ℚ) : Int := q.num / (q.den : Int)

/-- Python round() on an exact rational: round half to even. -/
def pyRound (q : ℚ) : Int :=
  let f : Int := ⌊q⌋
  let r : ℚ := q - (f : ℚ)
  if r < 1/2 then f
  else if (1:ℚ)/2 < r then f + 1
  else if Even f then f else f + 1

/-- Python round(x, 2) on an exact rational. -/
def roundTo2 (q : ℚ) : ℚ := ((pyRound (q * 100) : Int) : ℚ) / 100

/-- Decimal digit character for a value below ten. -/
def digitChar (n : Nat) : Char := Char.ofNat (48 + n)

/-- Decimal digit list of a natural number, most significant first,
modelling Python str() on a non-negative integer. -/
def natStrAux (n : Nat) : List Char :=
  if n < 10 then [digitChar n]
  else natStrAux (n / 10) ++ [digitChar (n % 10)]
termination_by n
decreasing_by exact Nat.div_lt_self (by omega) (by omega)

/-- Decimal string of a natural number, modelling Python str(). -/
def natStr (n : Nat) : String := String.mk (natStrAux n)

/-- Decimal string of an integer, modelling Python str(). -/
def intStr (i : Int) : String :=
  if i < 0 then String.mk (Char.ofNat 45 :: natStrAux i.natAbs) else natStr i.natAbs

/-- Numeric value recovered from a digit list; left inverse of natStrAux. -/
def digitsVal (l : List Char) : Nat := l.foldl (fun a c => 10 * a + (c.toNat - 48)) 0

/-- Python dict assignment d[k] = v: update in place when the key is
present, append at the end otherwise. -/
def dictInsert (d : List (String × α)) (k : String) (v : α) : List (String × α) :=
  if k ∈ d.map Prod.fst then
    d.map (fun p => if p.1 = k then (k, v) else p)
  else d ++ [(k, v)]

/-- Python defaultdict(list) access d[k].append(v). -/
def dictAppend (d : List (String × List α)) (k : String) (v : α) : List (String × List α) :=
  if k ∈ d.map Prod.fst then
    d.map (fun p => if p.1 = k then (p.1, p.2 ++ [v]) else p)
  else d ++ [(k, [v])]

/-- Python counting idiom d[k] = d.get(k, 0) + 1. -/
def dictIncr (d : List (String × Nat)) (k : String) : List (String × Nat) :=
  if k ∈ d.map Prod.fst then
    d.map (fun p => if p.1 = k then (p.1, p.2 + 1) else p)
  else d ++ [(k, 1)]

/-- Python set.add on a set modelled as its first-insertion-ordered list
of distinct elements. -/
def setAdd [DecidableEq α] (l : List α) (x : α) : List α :=
  if x ∈ l then l else l ++ [x]

/-- Stable insertion of x into a key-sorted list, after any element with
an equal or smaller key, matching the stability of Python sorted(). -/
def insertSorted (key : α → ℚ) : List α → α → List α
  | [], x => [x]
  | y :: ys, x => if key x < key y then x :: y :: ys else y :: insertSorted key ys x

/-- Stable sort by a rational key, modelling Python sorted(key=...). -/
def sortByKey (key : α → ℚ) (l : List α) : List α := l.foldl (insertSorted key) []

/-- Insertion into a strictly increasing list, dropping duplicates. -/
def insertDedup (x : ℚ) : List ℚ → List ℚ
  | [] => [x]
  | y :: ys => if x < y then x :: y :: ys else if x = y then y :: ys else y :: insertDedup x ys

/-- Strictly increasing list of the distinct elements of l, modelling
Python sorted(list(set(l))). -/
def sortedDedup (l : List ℚ) : List ℚ := l.foldl (fun acc x => insertDedup x acc) []

/-- A single-quote character as a string, used when building usage
samples. -/
def sq : String := String.mk [Char.ofNat 39]

/-! ### utils.py: color conversion and categorization -/

/-- A raw 0..1 RGB color record as it appears in paint dictionaries. -/
structure RGBColor where
  r : ℚ
  g : ℚ
  b : ℚ
deriving DecidableEq, Repr

/-- A hex color #rrggbb, represented by its three byte values.  The
two-lowercase-hex-digit rendering of a byte triple is injective, so hex
strings produced by rgb_to_hex are faithfully identified with triples. -/
structure Hex where
  r : Int
  g : Int
  b : Int
deriving DecidableEq, Repr

/-- rgb_to_hex from utils.py: scale each 0..1 channel by 255 and
truncate, as Python int() does. -/
def rgb_to_hex (r g b : ℚ) : Hex :=
  { r := pyInt (r * 255), g := pyInt (g * 255), b := pyInt (b * 255) }

/-- categorize_color from utils.py: white/black, gray bands by
brightness when the channels are within 30 of each other, otherwise a
dominant-channel hue heuristic. -/
def categorize_color (h : Hex) : String :=
  if h = ⟨255, 255, 255⟩ then "white"
  else if h = ⟨0, 0, 0⟩ then "black"
  else
    let r := h.r
    let g := h.g
    let b := h.b
    let brightness : ℚ := ((r + g + b : Int) : ℚ) / 3
    let maxDiff : Int := max (max (r - g).natAbs (g - b).natAbs) ((r - b).natAbs)
    if maxDiff < 30 then
      if brightness > 240 then "gray-50"
      else if brightness > 200 then "gray-100"
      else if brightness > 150 then "gray-200"
      else if brightness > 100 then "gray-300"
      else if brightness > 50 then "gray-600"
      else "gray-900"
    else if r > g ∧ r > b then
      if g > 150 ∧ b < 100 then
        if brightness > 150 then "yellow" else "orange"
      else if b > 100 then "purple"
      else "red"
    else if g > r ∧ g > b then
      if r > 150 then
        if brightness > 150 then "lime" else "green"
      else "green"
    else if b > r ∧ b > g then
      if r > 150 then "pink"
      else if g > 150 then "cyan"
      else "blue"
    else "unknown"

/-! ### utils.py: font weights, text properties, spacing patterns -/

/-- A raw fontWeight value, which Python may see as a string or number. -/
inductive WeightVal where
  | num (q : ℚ)
  | str (s : String)
deriving DecidableEq, Repr

/-- The string weight table of normalize_font_weight. -/
def weightMap : List (String × Int) :=
  [("thin", 100), ("extralight", 200), ("light", 300),
   ("normal", 400), ("regular", 400), ("medium", 500),
   ("semibold", 600), ("demibold", 600), ("bold", 700),
   ("extrabold", 800), ("black", 900), ("heavy", 900)]

/-- normalize_font_weight from utils.py.  A falsy (zero) numeric weight
falls back to 400 before clamping, exactly as the Python conditional
expression does. -/
def normalize_font_weight : WeightVal → Int
  | .str s => (((weightMap.find? (fun p => p.1 = pyLower s)).map Prod.snd).getD 400)
  | .num q => if q = 0 then 400 else max 100 (min 900 (pyInt q))

/-- A raw lineHeight value: either a dict carrying value, or a number. -/
inductive LineHeightVal where
  | dictVal (q : ℚ)
  | num (q : ℚ)
deriving DecidableEq, Repr

/-- A raw letterSpacing value: either a dict carrying value, or a number. -/
inductive LetterSpacingVal where
  | dictVal (q : ℚ)
  | num (q : ℚ)
deriving DecidableEq, Repr

/-- The style record of a TEXT node. -/
structure TextStyle where
  fontFamily : Option String := none
  fontSize : Option ℚ := none
  fontWeight : Option WeightVal := none
  lineHeight : Option LineHeightVal := none
  letterSpacing : Option LetterSpacingVal := none
  textAlignHorizontal : Option String := none
  textCase : Option String := none
deriving DecidableEq, Repr

/-- The normalized text-property dictionary built by
extract_text_properties; absent keys are none. -/
structure TextProperties where
  font_family : Option String := none
  font_size : Option ℚ := none
  font_weight : Option Int := none
  line_height : Option ℚ := none
  letter_spacing : Option ℚ := none
  text_align : Option String := none
  text_transform : Option String := none
deriving DecidableEq, Repr

/-- extract_text_properties from utils.py.  A falsy (zero) numeric line
height falls back to 1.4, as the Python conditional expression does. -/
def extract_text_properties (style : TextStyle) : TextProperties :=
  { font_family := style.fontFamily
    font_size := style.fontSize
    font_weight := style.fontWeight.map normalize_font_weight
    line_height := style.lineHeight.map (fun lh =>
      match lh with
      | .dictVal v => v
      | .num q => if q = 0 then (14 : ℚ) / 10 else q)
    letter_spacing := style.letterSpacing.map (fun ls =>
      match ls with
      | .dictVal v => v
      | .num q => q)
    text_align := style.textAlignHorizontal.map pyLower
    text_transform :=
      match style.textCase with
      | some tc => if tc ≠ "ORIGINAL" then some (pyLower tc) else none
      | none => none }

/-- The fixed canonical spacing scale of detect_spacing_pattern. -/
def common_scales : List ℚ := [4, 8, 12, 16, 20, 24, 32, 40, 48, 64, 80, 96]

/-- The step keys assigned by index in detect_spacing_pattern, written
here as a list paired positionally with common_scales in place of the
index-switch in the source. -/
def scaleKeys : List String :=
  ["xs", "sm", "md", "lg", "xl", "2xl", "3xl", "4xl", "5xl", "6xl", "7xl", "8xl"]

/-- Python min(candidates, key=abs difference to e): the first element
attaining the minimal absolute difference. -/
def closestTo (e : ℚ) : List ℚ → Option ℚ
  | [] => none
  | x :: xs => some (xs.foldl (fun best y => if |y - e| < |best - e| then y else best) x)

/-- The loop body of detect_spacing_pattern for one canonical step. -/
def spacingStep (uniq : List ℚ) (scale : List (String × ℚ)) (p : String × ℚ) :
    List (String × ℚ) :=
  match closestTo p.2 uniq with
  | none => scale
  | some c => if |c - p.2| < 4 then dictInsert scale p.1 c else scale

/-- detect_spacing_pattern from utils.py: a canonical step enters the
scale only when the closest observed value is strictly within 4px; the
base_unit computed by the source is never used and is omitted. -/
def detect_spacing_pattern (spacings : List ℚ) : List (String × ℚ) :=
  if spacings.isEmpty then []
  else
    let uniq := sortedDedup spacings
    (scaleKeys.zip common_scales).foldl (spacingStep uniq) []

/-- clean_component_name from utils.py. -/
def clean_component_name (name : String) : String :=
  let start := stripL (pyLower name).data
  let afterPre :=
    [("rect").data, ("ellipse").data, ("frame").data, ("group").data].foldl
      (fun cur p => if isPrefixList p cur then stripL (cur.drop p.length) else cur) start
  let afterSuf :=
    [(" copy").data, (" 1").data, (" 2").data, (" 3").data].foldl
      (fun cur p =>
        if isPrefixList p.reverse cur.reverse then stripL (cur.take (cur.length - p.length))
        else cur) afterPre
  if afterSuf ≠ [] then
    String.mk (afterSuf.map (fun c => if c = ' ' ∨ c = '_' then Char.ofNat 45 else c))
  else name

/-- The numeric branch of find_common_values: group a value into the
first group whose representative is within the relative tolerance,
otherwise start a new group.  Only numeric values reach this code in the
extraction pipeline. -/
def fcvStep (tol : ℚ) : List (List ℚ) → ℚ → List (List ℚ)
  | [], v => [[v]]
  | g :: gs, v =>
      match g with
      | [] => ([v]) :: gs
      | g0 :: _ =>
          if |g0 - v| ≤ tol * max |g0| |v| then (g ++ [v]) :: gs
          else g :: fcvStep tol gs v

/-- find_common_values from utils.py on numeric values: groups that
occur more than once are reported by their rounded average. -/
def find_common_values (values : List ℚ) (tol : ℚ) : List ℚ :=
  (values.foldl (fcvStep tol) []).filterMap (fun g =>
    if g.length > 1 then some (roundTo2 (g.foldl (· + ·) 0 / g.length)) else none)

/-! ### The document node model -/

/-- Bounding-box record; each coordinate key may be absent. -/
structure BBox where
  x : Option ℚ := none
  y : Option ℚ := none
  width : Option ℚ := none
  height : Option ℚ := none
deriving DecidableEq, Repr

/-- A gradient stop. -/
structure GradientStop where
  color : Option RGBColor := none
deriving DecidableEq, Repr

/-- A paint entry of a fills or strokes list. -/
structure Paint where
  type : String := ""
  color : Option RGBColor := none
  gradientStops : List GradientStop := []
  visible : Bool := true
  opacity : Option ℚ := none
  weight : Option ℚ := none
deriving DecidableEq, Repr

/-- The offset record of an effect. -/
structure EffectOffset where
  x : ℚ := 0
  y : ℚ := 0
deriving DecidableEq, Repr

/-- An effect entry. -/
structure Effect where
  type : String := ""
  radius : ℚ := 0
  color : Option RGBColor := none
  offset : Option EffectOffset := none
deriving DecidableEq, Repr

/-- The scalar payload of one document node.  A present-but-empty fills,
strokes, children or effects list behaves identically to an absent key
everywhere in the extraction code, so both are modelled as the empty
list; constraints are passed through opaquely and modelled as an opaque
optional tag. -/
structure NodeData where
  type : String := ""
  name : String := ""
  visible : Bool := true
  fills : List Paint := []
  strokes : List Paint := []
  absoluteBoundingBox : Option BBox := none
  boundingBox : Option BBox := none
  width : Option ℚ := none
  height : Option ℚ := none
  cornerRadius : Option ℚ := none
  opacity : Option ℚ := none
  layoutMode : Option String := none
  layoutAlign : Option String := none
  itemSpacing : Option ℚ := none
  paddingLeft : Option ℚ := none
  paddingRight : Option ℚ := none
  paddingTop : Option ℚ := none
  paddingBottom : Option ℚ := none
  style : Option TextStyle := none
  characters : Option String := none
  effects : List Effect := []
  constraints : Option String := none
deriving Repr

/-- A document node: scalar payload plus ordered children. -/
inductive Node where
  | mk (data : NodeData) (children : List Node)

/-- The scalar payload of a node. -/
def Node.data : Node → NodeData
  | .mk d _ => d

/-- The ordered children of a node. -/
def Node.children : Node → List Node
  | .mk _ c => c

/-! ### token_extractor.py: the token extractor -/

/-- A typography token as built during traversal. -/
structure TypographyToken where
  name : String
  font_family : String
  font_size : ℚ
  font_weight : Int
  line_height : ℚ
  letter_spacing : Option ℚ := none
  description : String
deriving DecidableEq, Repr

/-- A drop-shadow effect token.  The source renders this record into a
CSS-like string; the record holds the same data. -/
structure ShadowEffect where
  name : String
  offsetX : ℚ
  offsetY : ℚ
  radius : ℚ
  color : Hex
deriving DecidableEq, Repr

/-- A layer-blur effect token. -/
structure BlurEffect where
  name : String
  radius : ℚ
deriving DecidableEq, Repr

/-- The accumulator state of one TokenExtractor traversal.  The Python
sets all_color_values and all_font_families are modelled by their
first-insertion-ordered lists of distinct elements; the iteration order
Python later uses over them is abstracted as a separate argument of the
post-traversal processing. -/
structure TokenAcc where
  colorValues : List Hex := []
  fontSizes : List ℚ := []
  spacingValues : List ℚ := []
  fontFamilies : List String := []
  typography : List (String × TypographyToken) := []
  shadows : List ShadowEffect := []
  blurs : List BlurEffect := []
deriving Repr

/-- _extract_colors_from_fills: SOLID colors and gradient stops. -/
def extractColorsFromFills (acc : List Hex) (fills : List Paint) : List Hex :=
  fills.foldl (fun a f =>
    if f.type = "SOLID" then
      match f.color with
      | some c => setAdd a (rgb_to_hex c.r c.g c.b)
      | none => a
    else if f.type = "GRADIENT_LINEAR" then
      f.gradientStops.foldl (fun a2 st =>
        match st.color with
        | some c => setAdd a2 (rgb_to_hex c.r c.g c.b)
        | none => a2) a
    else a) acc

/-- _extract_colors_from_strokes: SOLID colors only. -/
def extractColorsFromStrokes (acc : List Hex) (strokes : List Paint) : List Hex :=
  strokes.foldl (fun a s =>
    if s.type = "SOLID" then
      match s.color with
      | some c => setAdd a (rgb_to_hex c.r c.g c.b)
      | none => a
    else a) acc

/-- The font-size band of _extract_typography_from_text. -/
def sizeCategory (fontSize : ℚ) : String :=
  if fontSize ≥ 32 then "heading"
  else if fontSize ≥ 20 then "subheading"
  else if fontSize ≥ 16 then "body"
  else "caption"

/-- Python title() evaluated on the four possible size categories. -/
def titleOfCategory (s : String) : String :=
  if s = "heading" then "Heading"
  else if s = "subheading" then "Subheading"
  else if s = "body" then "Body"
  else if s = "caption" then "Caption"
  else s

/-- The token name of _extract_typography_from_text, the dictionary key
under which typography tokens are deduplicated. -/
def typographyTokenName (font_size : ℚ) : String :=
  sizeCategory font_size ++ "-" ++ intStr (pyInt font_size)

/-- _extract_typography_from_text from token_extractor.py. -/
def extractTypographyFromText (acc : TokenAcc) (style : TextStyle) : TokenAcc :=
  let props := extract_text_properties style
  let acc1 :=
    match props.font_size with
    | some fs => { acc with fontSizes := acc.fontSizes ++ [fs] }
    | none => acc
  let acc2 :=
    match props.font_family with
    | some ff => { acc1 with fontFamilies := setAdd acc1.fontFamilies ff }
    | none => acc1
  let font_size := props.font_size.getD 16
  let font_weight := props.font_weight.getD 400
  let font_family := props.font_family.getD "Inter"
  let size_category := sizeCategory font_size
  let token_name := typographyTokenName font_size
  if token_name ∈ (acc2.typography.map Prod.fst : List String) then acc2
  else
    { acc2 with typography := acc2.typography ++
        [(token_name,
          { name := token_name
            font_family := font_family
            font_size := font_size
            font_weight := font_weight
            line_height := props.line_height.getD ((14 : ℚ) / 10)
            letter_spacing := props.letter_spacing
            description := titleOfCategory size_category ++ " text style" })] }

/-- _extract_spacing_from_layout from token_extractor.py. -/
def extractSpacingFromLayout (acc : List ℚ) (d : NodeData) : List ℚ :=
  let acc1 :=
    match d.absoluteBoundingBox with
    | some bbox =>
        let accW := match bbox.width with | some w => acc ++ [w] | none => acc
        match bbox.height with | some h => accW ++ [h] | none => accW
    | none => acc
  match d.layoutMode with
  | some _ =>
      let acc2 :=
        match d.itemSpacing with
        | some s => if s > 0 then acc1 ++ [s] else acc1
        | none => acc1
      let acc3 := match d.paddingLeft with | some p => acc2 ++ [p] | none => acc2
      let acc4 := match d.paddingRight with | some p => acc3 ++ [p] | none => acc3
      let acc5 := match d.paddingTop with | some p => acc4 ++ [p] | none => acc4
      match d.paddingBottom with | some p => acc5 ++ [p] | none => acc5
  | none => acc1

/-- _extract_effects_from_node from token_extractor.py. -/
def extractEffectsFromNode (shadows : List ShadowEffect) (blurs : List BlurEffect)
    (effects : List Effect) : List ShadowEffect × List BlurEffect :=
  effects.foldl (fun sb e =>
    let et := pyUpper e.type
    if et = "DROP_SHADOW" then
      match e.color with
      | some c =>
          (sb.1 ++ [{ name := String.mk (("shadow-").data ++ natStrAux (sb.1.length + 1))
                      offsetX := (e.offset.getD {}).x
                      offsetY := (e.offset.getD {}).y
                      radius := e.radius
                      color := rgb_to_hex c.r c.g c.b }], sb.2)
      | none => sb
    else if et = "LAYER_BLUR" then
      (sb.1, sb.2 ++ [{ name := String.mk (("blur-").data ++ natStrAux (sb.2.length + 1))
                        radius := e.radius }])
    else sb) (shadows, blurs)

/-- _extract_node_tokens from token_extractor.py. -/
def extractNodeTokens (acc : TokenAcc) (d : NodeData) : TokenAcc :=
  let ntype := pyUpper d.type
  let a1 :=
    if d.fills ≠ [] then
      { acc with colorValues := extractColorsFromFills acc.colorValues d.fills }
    else acc
  let a2 :=
    if d.strokes ≠ [] then
      { a1 with colorValues := extractColorsFromStrokes a1.colorValues d.strokes }
    else a1
  let a3 :=
    if ntype = "TEXT" then
      match d.style with
      | some st => extractTypographyFromText a2 st
      | none => a2
    else a2
  let a4 :=
    if ntype = "FRAME" ∨ ntype = "GROUP" ∨ ntype = "COMPONENT" ∨ ntype = "INSTANCE" then
      { a3 with spacingValues := extractSpacingFromLayout a3.spacingValues d }
    else a3
  if d.effects ≠ [] then
    let sb := extractEffectsFromNode a4.shadows a4.blurs d.effects
    { a4 with shadows := sb.1, blurs := sb.2 }
  else a4

mutual

/-- _traverse_document from token_extractor.py: pre-order, children in
document order. -/
def traverseDocument (acc : TokenAcc) : Node → TokenAcc
  | .mk d children => traverseDocList (extractNodeTokens acc d) children

/-- Traversal of a child list in document order. -/
def traverseDocList (acc : TokenAcc) : List Node → TokenAcc
  | [] => acc
  | c :: cs => traverseDocList (traverseDocument acc c) cs

end

/-- The three color buckets built by _process_colors. -/
structure ColorBuckets where
  semantic : List (String × Hex)
  neutral : List (String × Hex)
  brand : List (String × Hex)
deriving DecidableEq, Repr

/-- The fixed semantic hex lookup table from _process_colors. -/
def semanticMap : List (Hex × String) :=
  [(⟨255, 0, 0⟩, "danger"), (⟨220, 53, 69⟩, "danger"),
   (⟨40, 167, 69⟩, "success"), (⟨40, 180, 70⟩, "success"),
   (⟨255, 193, 7⟩, "warning"), (⟨251, 187, 0⟩, "warning"),
   (⟨0, 123, 255⟩, "info"), (⟨98, 87, 219⟩, "primary"),
   (⟨108, 117, 125⟩, "secondary"), (⟨59, 89, 153⟩, "facebook")]

/-- Lookup of a hex value in the semantic table. -/
def semLookup (h : Hex) : Option String :=
  (semanticMap.find? (fun p => p.1 = h)).map Prod.snd

/-- The neutral test of _process_colors: category is white, black, or
contains gray. -/
def isNeutralName (s : String) : Bool :=
  s = "white" || s = "black" || containsSub s "gray"

/-- The brand key brand-N generated for the N-th brand color. -/
def mkBrandKey (n : Nat) : String := String.mk (("brand-").data ++ natStrAux n)

/-- One step of the _process_colors loop body, routing a single hex
value into the semantic, neutral, or brand bucket. -/
def processColorsStep (acc : ColorBuckets) (c : Hex) : ColorBuckets :=
  match semLookup c with
  | some nm => { acc with semantic := dictInsert acc.semantic nm c }
  | none =>
      let category := categorize_color c
      if isNeutralName category then
        { acc with neutral := dictInsert acc.neutral category c }
      else
        { acc with brand := dictInsert acc.brand (mkBrandKey (acc.brand.length + 1)) c }

/-- _process_colors from token_extractor.py, as a function of the color
list in the order Python happens to iterate the set of observed values. -/
def processColors (l : List Hex) : ColorBuckets :=
  l.foldl processColorsStep ⟨[], [], []⟩

/-- Whether _process_colors routes a hex value to the brand bucket; this
depends on the hex value alone. -/
def isBrandHex (h : Hex) : Bool :=
  (semLookup h).isNone && !(isNeutralName (categorize_color h))

/-- Enumerated brand association pairs: the hexes of l keyed
brand-(n+1), brand-(n+2), ... in order. -/
def brandEnum (n : Nat) : List Hex → List (String × Hex)
  | [] => []
  | c :: cs => (mkBrandKey (n + 1), c) :: brandEnum (n + 1) cs

/-- The processed typography structure of _process_typography.  The
source stores the leading-N line-height entries into the fontSizes
dictionary and leaves lineHeights empty; that quirk is preserved. -/
structure ProcessedTypography where
  fontFamily : String
  fontSizes : List (String × ℚ)
  fontWeights : List (String × Int)
  lineHeights : List (String × ℚ)
deriving DecidableEq, Repr

/-- The font-size band naming of _process_typography. -/
def processedSizeKey (size : Int) : String :=
  if size ≥ 40 then "heading-1"
  else if size ≥ 32 then "heading-2"
  else if size ≥ 24 then "heading-3"
  else if size ≥ 20 then "subheading"
  else if size ≥ 16 then "body"
  else "caption"

/-- The weight naming table of _process_typography. -/
def weightNames : List (Int × String) :=
  [(400, "regular"), (600, "medium"), (700, "bold"), (900, "black")]

/-- _process_typography from token_extractor.py.  famOrder is the
iteration order Python happens to use over the set of font families;
Counter over that set gives every family count one, so most_common
returns the first family in that order. -/
def processTypography (typ : List (String × TypographyToken)) (famOrder : List String) :
    Option ProcessedTypography :=
  if typ.isEmpty then none
  else
    let mostCommonFamily := match famOrder with | [] => "Inter" | f :: _ => f
    let fontSizes := sortedDedup (typ.map (fun p => ((pyInt p.2.font_size : Int) : ℚ)))
    let fontWeights := sortedDedup (typ.map (fun p => ((p.2.font_weight : Int) : ℚ)))
    let lineHeights := sortedDedup (typ.map (fun p => roundTo2 p.2.line_height))
    let sizeDict :=
      if fontSizes.length = 1 then
        match fontSizes with
        | [s] => [("body", s)]
        | _ => []
      else
        fontSizes.foldl (fun d s => dictInsert d (processedSizeKey (pyInt s)) s) []
    let weightDict :=
      fontWeights.foldl (fun d w =>
        let wi := pyInt w
        let nm := ((weightNames.find? (fun p => p.1 = wi)).map Prod.snd).getD (intStr wi)
        dictInsert d nm wi) []
    let sizeDictWithLeading :=
      lineHeights.foldl (fun d h =>
        dictInsert d (String.mk (("leading-").data ++ (intStr (pyInt (h * 100))).data)) h)
        sizeDict
    some { fontFamily := mostCommonFamily
           fontSizes := sizeDictWithLeading
           fontWeights := weightDict
           lineHeights := [] }

/-- _process_spacing from token_extractor.py. -/
def processSpacing (allSpacingValues : List ℚ) : List (String × ℚ) :=
  if allSpacingValues.isEmpty then [] else detect_spacing_pattern allSpacingValues

/-- The combined token output of _build_token_output.  The typography
field is none when no typography tokens were collected, in which case
the source leaves the raw empty dictionary in place. -/
structure TokenOutput where
  colors : ColorBuckets
  typography : Option ProcessedTypography
  spacing : List (String × ℚ)
  effects : Option (List ShadowEffect × List BlurEffect)
deriving Repr

/-- extract_all_tokens from token_extractor.py.  colorOrder and
famOrder supply the iteration orders Python uses over the sets of
observed color values and font families; a faithful run passes a
permutation of the collected distinct values. -/
def extract_all_tokens (doc : Node) (colorOrder : List Hex) (famOrder : List String) :
    TokenOutput :=
  let acc := traverseDocument {} doc
  { colors := processColors colorOrder
    typography := processTypography acc.typography famOrder
    spacing := processSpacing acc.spacingValues
    effects :=
      if acc.shadows ≠ [] ∨ acc.blurs ≠ [] then some (acc.shadows, acc.blurs) else none }

/-! ### component_parser.py: component classifier and variant grouper -/

/-- The interactive keyword set of ComponentParser. -/
def interactive_patterns : List String :=
  ["button", "btn", "submit", "cancel", "close", "add", "delete",
   "edit", "save", "search", "filter", "menu", "toggle", "switch"]

/-- The input keyword set of ComponentParser. -/
def input_patterns : List String :=
  ["input", "field", "textfield", "textarea", "searchbox",
   "email", "password", "name", "username"]

/-- The display keyword set of ComponentParser. -/
def display_patterns : List String :=
  ["card", "badge", "avatar", "icon", "image", "photo",
   "banner", "header", "footer", "sidebar", "navbar"]

/-- Python any(pattern in name for pattern in patterns). -/
def matchesAny (name : String) (pats : List String) : Bool :=
  pats.any (fun p => containsSub name p)

/-- _has_component_properties from component_parser.py. -/
def has_component_properties (d : NodeData) : Bool :=
  if d.cornerRadius.getD 0 > 0 then true
  else if d.fills ≠ [] ∨ d.strokes ≠ [] then true
  else
    match d.absoluteBoundingBox with
    | some bbox =>
        let w := bbox.width.getD 0
        let h := bbox.height.getD 0
        decide (20 ≤ w ∧ w ≤ 500 ∧ 20 ≤ h ∧ h ≤ 500)
    | none => false

/-- _has_component_structure from component_parser.py. -/
def has_component_structure (n : Node) : Bool :=
  if n.children.isEmpty then false
  else if n.children.length ≥ 2 then
    let hasBackground := n.children.any (fun c => pyUpper c.data.type = "RECTANGLE")
    let hasText := n.children.any (fun c => pyUpper c.data.type = "TEXT")
    let hasIcon := n.children.any (fun c => containsSub (pyLower c.data.name) "icon")
    hasBackground && (hasText || hasIcon)
  else false

/-- _is_component_node from component_parser.py. -/
def is_component_node (n : Node) : Bool :=
  let ntype := pyUpper n.data.type
  let nname := pyLower n.data.name
  if ntype = "DOCUMENT" ∨ ntype = "PAGE" then false
  else if ntype = "COMPONENT" ∨ ntype = "INSTANCE" then true
  else if matchesAny nname interactive_patterns then true
  else if matchesAny nname input_patterns then true
  else if matchesAny nname display_patterns then true
  else if ntype = "RECTANGLE" ∧ has_component_properties n.data then true
  else if ntype = "GROUP" ∧ has_component_structure n then true
  else false

/-- The property tuple hashed by _generate_component_id.  The source
renders this tuple into a joined string and takes the first eight hex
digits of its MD5; that digest step is abstracted as a fingerprint
function argument of the pipeline, applied to this tuple. -/
structure FingerprintProps where
  type : String
  cleanName : String
  dims : Option (ℚ × ℚ)
  fillTypes : Option (List String)
  cornerRadius : Option ℚ
deriving DecidableEq, Repr

/-- The hashed properties of _generate_component_id. -/
def fingerprintProps (d : NodeData) : FingerprintProps :=
  { type := d.type
    cleanName := clean_component_name d.name
    dims := d.absoluteBoundingBox.map (fun b => (b.width.getD 0, b.height.getD 0))
    fillTypes := if d.fills ≠ [] then some (d.fills.map Paint.type) else none
    cornerRadius := d.cornerRadius }

/-- A solid fill entry of the component props dictionary. -/
structure SolidFill where
  color : Hex
  opacity : ℚ
deriving DecidableEq, Repr

/-- A solid stroke entry of the component props dictionary. -/
structure SolidStroke where
  color : Hex
  weight : ℚ
deriving DecidableEq, Repr

/-- The props dictionary of _extract_component_properties; absent keys
are none. -/
structure ComponentProps where
  type : String
  name : String
  width : Option ℚ := none
  height : Option ℚ := none
  x : Option ℚ := none
  y : Option ℚ := none
  fills : Option (List SolidFill) := none
  strokes : Option (List SolidStroke) := none
  cornerRadius : Option ℚ := none
  opacity : Option ℚ := none
  textProps : Option TextProperties := none
  text : Option String := none
deriving DecidableEq, Repr

/-- _extract_component_properties from component_parser.py. -/
def extract_component_properties (d : NodeData) : ComponentProps :=
  { type := pyLower d.type
    name := d.name
    width := d.absoluteBoundingBox.map (fun b => b.width.getD 0)
    height := d.absoluteBoundingBox.map (fun b => b.height.getD 0)
    x := d.absoluteBoundingBox.map (fun b => b.x.getD 0)
    y := d.absoluteBoundingBox.map (fun b => b.y.getD 0)
    fills :=
      if d.fills ≠ [] then
        some (d.fills.filterMap (fun f =>
          if f.type = "SOLID" then
            f.color.map (fun c =>
              { color := rgb_to_hex c.r c.g c.b, opacity := f.opacity.getD 1 })
          else none))
      else none
    strokes :=
      if d.strokes ≠ [] then
        some (d.strokes.filterMap (fun s =>
          if s.type = "SOLID" then
            s.color.map (fun c =>
              { color := rgb_to_hex c.r c.g c.b, weight := s.weight.getD 1 })
          else none))
      else none
    cornerRadius := d.cornerRadius
    opacity := d.opacity
    textProps :=
      if pyUpper d.type = "TEXT" then d.style.map extract_text_properties else none
    text :=
      if pyUpper d.type = "TEXT" ∧ d.style.isSome then d.characters else none }

/-- A child summary entry of _extract_component_children. -/
structure ChildSummary where
  name : String
  type : String
  visible : Bool
  width : Option ℚ := none
  height : Option ℚ := none
  text : Option String := none
deriving DecidableEq, Repr

/-- _extract_component_children from component_parser.py. -/
def extract_component_children (n : Node) : List ChildSummary :=
  n.children.map (fun c =>
    { name := c.data.name
      type := pyLower c.data.type
      visible := c.data.visible
      width := c.data.absoluteBoundingBox.map (fun b => b.width.getD 0)
      height := c.data.absoluteBoundingBox.map (fun b => b.height.getD 0)
      text :=
        if pyUpper c.data.type = "TEXT" then c.data.characters else none })

/-- _create_variant_name from component_parser.py.  The source receives
the varying-properties list as a second argument but never reads it. -/
def create_variant_name (d : NodeData) : String :=
  let node_name := pyLower d.name
  if containsSub node_name "primary" ∨ containsSub node_name "main" then "primary"
  else if containsSub node_name "secondary" ∨ containsSub node_name "alt" then "secondary"
  else if containsSub node_name "outline" ∨ containsSub node_name "ghost" then "outline"
  else if containsSub node_name "small" ∨ containsSub node_name "sm" then "small"
  else if containsSub node_name "large" ∨ containsSub node_name "lg" then "large"
  else if containsSub node_name "hover" then "hover"
  else if containsSub node_name "active" ∨ containsSub node_name "pressed" then "active"
  else if containsSub node_name "disabled" then "disabled"
  else "default"

/-- _determine_component_type from component_parser.py. -/
def determine_component_type (n : Node) : String :=
  let node_name := pyLower n.data.name
  let ntype := pyUpper n.data.type
  if matchesAny node_name interactive_patterns then "interactive"
  else if matchesAny node_name input_patterns then "interactive"
  else if matchesAny node_name display_patterns then "display"
  else if ntype = "TEXT" then "text"
  else if (ntype = "FRAME" ∨ ntype = "GROUP") ∧ n.children.length > 2 then "layout"
  else "display"

/-- _generate_component_name from component_parser.py. -/
def generate_component_name (n : Node) (component_id : String) : String :=
  let cn := clean_component_name n.data.name
  if cn = "" ∨ cn = "rect" ∨ cn = "frame" then
    determine_component_type n ++ "-" ++ component_id
  else cn

/-- A component variant record. -/
structure ComponentVariant where
  name : String
  props : ComponentProps
  example_usage : String
deriving DecidableEq, Repr

/-- _extract_component_variants from component_parser.py: group the
instances of one fingerprint by semantic variant name, then emit one
variant per group from its first instance. -/
def extract_component_variants (instances : List Node) : List ComponentVariant :=
  let groups := instances.foldl (fun g n => dictAppend g (create_variant_name n.data) n) []
  groups.filterMap (fun p =>
    match p.2 with
    | [] => none
    | ex :: _ =>
        some { name := p.1
               props := extract_component_properties ex.data
               example_usage :=
                 "<" ++ generate_component_name ex "" ++ " variant=" ++ sq ++ p.1 ++ sq
                   ++ " />" })

/-- A component specification record. -/
structure ComponentSpec where
  name : String
  type : String
  props : ComponentProps
  variants : List ComponentVariant
  children : List ChildSummary
  description : String
deriving DecidableEq, Repr

/-- _generate_component_description from component_parser.py. -/
def generate_component_description (name ctype : String) : String :=
  let base :=
    if ctype = "interactive" then "Interactive UI component with user interactions"
    else if ctype = "display" then "Visual component for displaying content"
    else if ctype = "layout" then "Layout component for organizing content"
    else if ctype = "text" then "Typography component for text display"
    else "UI component"
  name ++ " - " ++ base

mutual

/-- _identify_components from component_parser.py: bucket every
qualifying node by its fingerprint, in pre-order.  The fingerprint
function fp abstracts the truncated MD5 digest of the rendered property
tuple; the path recorded by the source next to each instance is never
read downstream and is omitted. -/
def identifyNode (fp : FingerprintProps → String)
    (patterns : List (String × List Node)) : Node → List (String × List Node)
  | .mk d children =>
      let p1 :=
        if is_component_node (.mk d children) then
          dictAppend patterns (fp (fingerprintProps d)) (.mk d children)
        else patterns
      identifyList fp p1 children

/-- Identification over a child list in document order. -/
def identifyList (fp : FingerprintProps → String)
    (patterns : List (String × List Node)) : List Node → List (String × List Node)
  | [] => patterns
  | c :: cs => identifyList fp (identifyNode fp patterns c) cs

end

/-- _create_component_specs from component_parser.py: one specification
is built per fingerprint bucket, stored into a dictionary keyed by the
generated component name.  The variant-analysis pass the source runs
beforehand only attaches diagnostic metadata that no output reads, so
it does not appear here. -/
def create_component_specs (patterns : List (String × List Node)) :
    List (String × ComponentSpec) :=
  patterns.foldl (fun comps p =>
    match p.2 with
    | [] => comps
    | base :: _ =>
        let ctype := determine_component_type base
        let cname := generate_component_name base p.1
        let spec : ComponentSpec :=
          { name := cname
            type := ctype
            props := extract_component_properties base.data
            variants := extract_component_variants p.2
            children := extract_component_children base
            description := generate_component_description cname ctype }
        dictInsert comps cname spec) []

/-- _get_component_category from component_parser.py. -/
def get_component_category (spec : ComponentSpec) : String :=
  let nm := pyLower spec.name
  if spec.type = "interactive" then
    if containsSub nm "input" ∨ containsSub nm "field" then "forms"
    else if containsSub nm "button" ∨ containsSub nm "btn" then "buttons"
    else "interactive"
  else if spec.type = "display" then
    if containsSub nm "card" then "cards"
    else if containsSub nm "badge" then "badges"
    else "display"
  else if spec.type = "layout" then "layout"
  else if spec.type = "text" then "typography"
  else "general"

/-- A component catalog entry of _build_component_output. -/
structure ComponentEntry where
  name : String
  type : String
  category : String
  props : ComponentProps
  variants : List ComponentVariant
  children : List ChildSummary
  description : String
deriving DecidableEq, Repr

/-- _build_component_output from component_parser.py. -/
def build_component_output (comps : List (String × ComponentSpec)) : List ComponentEntry :=
  comps.map (fun p =>
    { name := p.2.name
      type := p.2.type
      category := get_component_category p.2
      props := p.2.props
      variants := p.2.variants
      children := p.2.children
      description := p.2.description })

/-- parse_all_components from component_parser.py, parameterized by the
fingerprint digest function. -/
def parse_all_components (fp : FingerprintProps → String) (doc : Node) :
    List ComponentEntry :=
  build_component_output (create_component_specs (identifyNode fp [] doc))

/-! ### layout_analyzer.py: screens, layouts, grid detection -/

/-- The size record built by _extract_size_info. -/
structure SizeInfo where
  width : ℚ
  height : ℚ
  x : ℚ
  y : ℚ
deriving DecidableEq, Repr

/-- _extract_size_info from layout_analyzer.py: absolute bounding box
first, then the plain bounding box, then width/height fields when both
are positive; otherwise no size is resolvable. -/
def extract_size_info (d : NodeData) : Option SizeInfo :=
  match d.absoluteBoundingBox with
  | some bbox =>
      some { width := bbox.width.getD 0, height := bbox.height.getD 0,
             x := bbox.x.getD 0, y := bbox.y.getD 0 }
  | none =>
      match d.boundingBox with
      | some bbox =>
          some { width := bbox.width.getD 0, height := bbox.height.getD 0,
                 x := bbox.x.getD 0, y := bbox.y.getD 0 }
      | none =>
          let w := d.width.getD 0
          let h := d.height.getD 0
          if w > 0 ∧ h > 0 then some { width := w, height := h, x := 0, y := 0 }
          else none

/-- _extract_background_color from layout_analyzer.py: the first
visible SOLID fill carrying a color.  The inline byte conversion of the
source coincides with rgb_to_hex. -/
def extract_background_color (d : NodeData) : Option Hex :=
  d.fills.findSome? (fun f =>
    if f.type = "SOLID" ∧ f.visible then f.color.map (fun c => rgb_to_hex c.r c.g c.b)
    else none)

/-- The style snapshot of _extract_child_style_info. -/
structure ChildStyleInfo where
  background_colors : Option (List Hex) := none
  border_radius : Option ℚ := none
  opacity : Option ℚ := none
deriving DecidableEq, Repr

/-- _extract_child_style_info from layout_analyzer.py. -/
def extract_child_style_info (d : NodeData) : ChildStyleInfo :=
  { background_colors :=
      if d.fills ≠ [] then
        let fs := d.fills.filterMap (fun f =>
          if f.type = "SOLID" then f.color.map (fun c => rgb_to_hex c.r c.g c.b) else none)
        if fs ≠ [] then some fs else none
      else none
    border_radius := d.cornerRadius
    opacity := d.opacity }

/-- A per-child layout record of _extract_child_layout_info.  The
component_ref field the source always sets to None is omitted. -/
structure ChildLayoutInfo where
  name : String
  type : String
  index : Nat
  width : ℚ
  height : ℚ
  x : ℚ
  y : ℚ
  visible : Bool
  style : ChildStyleInfo
  constraints : Option String := none
deriving DecidableEq, Repr

/-- _extract_child_layout_info from layout_analyzer.py. -/
def extract_child_layout_info (n : Node) (index : Nat) : Option ChildLayoutInfo :=
  (extract_size_info n.data).map (fun sz =>
    { name := n.data.name
      type := pyLower n.data.type
      index := index
      width := sz.width
      height := sz.height
      x := sz.x
      y := sz.y
      visible := n.data.visible
      style := extract_child_style_info n.data
      constraints := n.data.constraints })

/-- _extract_children_layouts from layout_analyzer.py: children whose
size cannot be resolved are silently excluded. -/
def extract_children_layouts (n : Node) : List ChildLayoutInfo :=
  n.children.enum.filterMap (fun p => extract_child_layout_info p.2 p.1)

/-- A position record of _analyze_manual_layout. -/
structure PosRec where
  x : ℚ
  y : ℚ
  width : ℚ
  height : ℚ
deriving DecidableEq, Repr

/-- Maximum of a rational list, with the head as the seed. -/
def maxQ : List ℚ → ℚ
  | [] => 0
  | a :: t => t.foldl max a

/-- Minimum of a rational list, with the head as the seed. -/
def minQ : List ℚ → ℚ
  | [] => 0
  | a :: t => t.foldl min a

/-- Consecutive positive gaps between sorted sibling boxes along one
axis: next position minus current position plus current extent, kept
only when positive. -/
def posGaps (getPos getSize : PosRec → ℚ) : List PosRec → List ℚ
  | a :: b :: rest =>
      (if getPos b - (getPos a + getSize a) > 0 then [getPos b - (getPos a + getSize a)]
       else []) ++ posGaps getPos getSize (b :: rest)
  | _ => []

/-- The padding record of _analyze_layout_properties. -/
structure PaddingInfo where
  left : Option ℚ := none
  right : Option ℚ := none
  top : Option ℚ := none
  bottom : Option ℚ := none
deriving DecidableEq, Repr

/-- The layout dictionary of _analyze_layout_properties. -/
structure LayoutProperties where
  type : String
  direction : Option String := none
  alignment : Option String := none
  spacing : Option ℚ := none
  padding : Option PaddingInfo := none
deriving DecidableEq, Repr

/-- The result of _analyze_manual_layout together with the spacing
observations it records into the global spacing-pattern pool. -/
structure ManualLayoutResult where
  direction : Option String := none
  spacing : Option ℚ := none
  alignment : Option String := none
  spacingObs : List ℚ := []
deriving DecidableEq, Repr

/-- _analyze_manual_layout from layout_analyzer.py. -/
def analyze_manual_layout (n : Node) : ManualLayoutResult :=
  if n.children.length < 2 then {}
  else
    let positions := n.children.filterMap (fun c =>
      c.data.absoluteBoundingBox.map (fun b =>
        ({ x := b.x.getD 0, y := b.y.getD 0,
           width := b.width.getD 0, height := b.height.getD 0 } : PosRec)))
    if positions.length < 2 then {}
    else
      let xs := positions.map PosRec.x
      let ys := positions.map PosRec.y
      let xVariance := maxQ xs - minQ xs
      let yVariance := maxQ ys - minQ ys
      let horizontal := xVariance > yVariance
      let sortedP :=
        if horizontal then sortByKey PosRec.x positions else sortByKey PosRec.y positions
      let gaps :=
        if horizontal then posGaps PosRec.x PosRec.width sortedP
        else posGaps PosRec.y PosRec.height sortedP
      let spacing :=
        if gaps.isEmpty then none else some (gaps.foldl (· + ·) 0 / (gaps.length : ℚ))
      let cross := if horizontal then ys else xs
      let alignment :=
        match cross with
        | [] => none
        | c0 :: rest => if rest.all (fun c => c = c0) then some "center" else none
      { direction := some (if horizontal then "horizontal" else "vertical")
        spacing := spacing
        alignment := alignment
        spacingObs := gaps }

/-- _analyze_layout_properties from layout_analyzer.py, returning the
layout dictionary and the spacing observations recorded into the global
spacing-pattern pool. -/
def analyze_layout_properties (n : Node) : LayoutProperties × List ℚ :=
  match n.data.layoutMode with
  | some lm =>
      let padding : PaddingInfo :=
        { left := n.data.paddingLeft, right := n.data.paddingRight,
          top := n.data.paddingTop, bottom := n.data.paddingBottom }
      let anyPadding :=
        n.data.paddingLeft.isSome ∨ n.data.paddingRight.isSome ∨
        n.data.paddingTop.isSome ∨ n.data.paddingBottom.isSome
      ({ type := "auto-layout"
         direction := some (pyLower lm)
         alignment := some (pyLower (n.data.layoutAlign.getD "STRETCH"))
         spacing := n.data.itemSpacing
         padding := if anyPadding then some padding else none },
       match n.data.itemSpacing with
       | some s => if s > 0 then [s] else []
       | none => [])
  | none =>
      let m := if n.children.length > 1 then analyze_manual_layout n else {}
      ({ type := "manual"
         direction := m.direction
         alignment := m.alignment
         spacing := m.spacing
         padding := none },
       m.spacingObs)

/-- A screen layout record. -/
structure ScreenLayout where
  name : String
  type : String
  size : SizeInfo
  background_color : Option Hex := none
  children : List ChildLayoutInfo
  layout : LayoutProperties
  description : String
deriving DecidableEq, Repr

/-- _create_screen_layout from layout_analyzer.py, returning the screen
(or none when no size is resolvable) and the recorded spacing
observations. -/
def create_screen_layout (n : Node) : Option ScreenLayout × List ℚ :=
  match extract_size_info n.data with
  | none => (none, [])
  | some size =>
      let li := analyze_layout_properties n
      (some { name := n.data.name
              type := pyLower (pyUpper n.data.type)
              size := size
              background_color := extract_background_color n.data
              children := extract_children_layouts n
              layout := li.1
              description := pyUpper n.data.type ++ " screen: " ++ n.data.name },
       li.2)

/-- Whether a node at the given depth is picked up as a screen by
_extract_screens: a FRAME at positive depth, or a CANVAS at depth one. -/
def screenCandidate (d : NodeData) (depth : Nat) : Bool :=
  (pyUpper d.type = "FRAME" ∧ depth > 0) ∨ (pyUpper d.type = "CANVAS" ∧ depth = 1)

mutual

/-- _extract_screens from layout_analyzer.py: the screen of a
qualifying node is appended before its subtree is traversed. -/
def extractScreensNode (n : Node) (depth : Nat) : List ScreenLayout × List ℚ :=
  match n with
  | .mk d children =>
      let own : List ScreenLayout × List ℚ :=
        if screenCandidate d depth then
          match create_screen_layout (.mk d children) with
          | (some s, obs) => ([s], obs)
          | (none, obs) => ([], obs)
        else ([], [])
      let rest := extractScreensList children (depth + 1)
      (own.1 ++ rest.1, own.2 ++ rest.2)

/-- Screen extraction over a child list in document order. -/
def extractScreensList : List Node → Nat → List ScreenLayout × List ℚ
  | [], _ => ([], [])
  | c :: cs, depth =>
      let first := extractScreensNode c depth
      let rest := extractScreensList cs depth
      (first.1 ++ rest.1, first.2 ++ rest.2)

end

mutual

/-- The depth-annotated pre-order listing of a tree, used to state
which nodes _extract_screens visits at which depth. -/
def preorderWithDepth : Node → Nat → List (Node × Nat)
  | .mk d children, depth =>
      (.mk d children, depth) :: preorderListWithDepth children (depth + 1)

/-- The depth-annotated pre-order listing of a child list. -/
def preorderListWithDepth : List Node → Nat → List (Node × Nat)
  | [], _ => []
  | c :: cs, depth => preorderWithDepth c depth ++ preorderListWithDepth cs depth

end

/-- Consecutive differences of a list. -/
def consecutiveDeltas : List ℚ → List ℚ
  | a :: b :: rest => (b - a) :: consecutiveDeltas (b :: rest)
  | _ => []

/-- The clustering loop of _find_regular_spacing: a spacing within the
tolerance of the first matching existing key increments that key,
otherwise it starts a new key with count one. -/
def groupSpacing : List (ℚ × Nat) → ℚ → List (ℚ × Nat)
  | [], s => [(s, 1)]
  | p :: ps, s => if |s - p.1| < 2 then (p.1, p.2 + 1) :: ps else p :: groupSpacing ps s

/-- Python max(counts, key=counts.get): the first key attaining the
maximal count, in insertion order. -/
def bestSpacing : List (ℚ × Nat) → Option (ℚ × Nat)
  | [] => none
  | c :: cs => some (cs.foldl (fun b p => if p.2 > b.2 then p else b) c)

/-- _find_regular_spacing from layout_analyzer.py with its default
tolerance of 2.0 pixels, the only tolerance the callers use. -/
def find_regular_spacing (positions : List ℚ) : Option ℚ :=
  if positions.length < 3 then none
  else
    let sorted := sortByKey id positions
    let spacings := (consecutiveDeltas sorted).filter (fun s => s > 2)
    if spacings.length < 2 then none
    else
      match bestSpacing (spacings.foldl groupSpacing []) with
      | none => none
      | some best => if best.2 ≥ 2 then some best.1 else none

/-- A grid system record. -/
structure GridSystem where
  screen : String
  x_spacing : Option ℚ
  y_spacing : Option ℚ
  columns : Option Nat
  rows : Option Nat
deriving DecidableEq, Repr

/-- Python float truthiness on an optional spacing: None and 0.0 are
falsy. -/
def qTruthy : Option ℚ → Bool
  | some v => v ≠ 0
  | none => false

/-- _analyze_screen_grid from layout_analyzer.py.  The source divides a
position by the detected spacing and counts distinct Python round()
buckets; the truthiness guards of the source are preserved. -/
def analyze_screen_grid (screen : ScreenLayout) : Option GridSystem :=
  if screen.children.length < 2 then none
  else
    let xs := screen.children.map ChildLayoutInfo.x
    let ys := screen.children.map ChildLayoutInfo.y
    let xsp := find_regular_spacing xs
    let ysp := find_regular_spacing ys
    if qTruthy xsp ∨ qTruthy ysp then
      some { screen := screen.name
             x_spacing := xsp
             y_spacing := ysp
             columns :=
               if qTruthy xsp then
                 some ((xs.map (fun x => pyRound (x / xsp.getD 0))).dedup.length)
               else none
             rows :=
               if qTruthy ysp then
                 some ((ys.map (fun y => pyRound (y / ysp.getD 0))).dedup.length)
               else none }
    else none

/-- _detect_grid_systems from layout_analyzer.py. -/
def detect_grid_systems (screens : List ScreenLayout) : List GridSystem :=
  screens.filterMap analyze_screen_grid

/-- The layout_patterns dictionary of _analyze_layout_patterns.  The
screen_sizes key models list(set(...)) by the first-occurrence order of
the distinct size pairs; no downstream consumer depends on that order. -/
structure LayoutPatterns where
  common_spacing : Option (List ℚ) := none
  screen_sizes : List (ℚ × ℚ) := []
  layout_directions : Option (List (String × Nat)) := none
deriving DecidableEq, Repr

/-- _analyze_layout_patterns from layout_analyzer.py. -/
def analyze_layout_patterns (screens : List ScreenLayout) (spacingObs : List ℚ) :
    LayoutPatterns :=
  { common_spacing :=
      if spacingObs ≠ [] then some (find_common_values spacingObs 2) else none
    screen_sizes :=
      (screens.map (fun s => (s.size.width, s.size.height))).foldl setAdd []
    layout_directions :=
      let directions := screens.filterMap (fun s => s.layout.direction)
      if directions ≠ [] then some (directions.foldl dictIncr []) else none }

/-- The combined layout output of _build_layout_output.  The
layout_patterns dictionary always receives its screen_sizes key, so the
source always includes it. -/
structure LayoutOutput where
  screens : List ScreenLayout
  layout_patterns : LayoutPatterns
  grid_systems : Option (List GridSystem)
deriving Repr

/-- analyze_all_layouts from layout_analyzer.py. -/
def analyze_all_layouts (doc : Node) : LayoutOutput :=
  let sc := extractScreensNode doc 0
  let grids := detect_grid_systems sc.1
  { screens := sc.1
    layout_patterns := analyze_layout_patterns sc.1 sc.2
    grid_systems := if grids ≠ [] then some grids else none }

/-! ### extract_design_system.py: the duplicated typography dedup -/

/-- A typography entry of DesignSystemExtractor.extract_typography. -/
structure DsTypEntry where
  name : String
  fontSize : ℚ
  fontWeight : ℚ
  fontFamily : String
  lineHeight : ℚ
deriving DecidableEq, Repr

/-- The duplicate-removal loop of DesignSystemExtractor.extract_typography,
which keys on the exact (fontSize, fontWeight) pair and keeps the first
occurrence of each pair. -/
def dsDedupTypography (entries : List DsTypEntry) : List DsTypEntry :=
  (entries.foldl (fun st e =>
    if (e.fontSize, e.fontWeight) ∈ st.2 then st
    else (st.1 ++ [e], st.2 ++ [(e.fontSize, e.fontWeight)])) ([], [])).1

/-! ### Statement-side constructions and concrete example documents -/

/-- An arithmetic progression of n positions starting at x0 with the
given step. -/
def arithProg (x0 step : ℚ) : Nat → List ℚ
  | 0 => []
  | n + 1 => x0 :: arithProg (x0 + step) step n

/-- Consecutive integers k, k+1, ..., k+n-1. -/
def intSeq (k : Int) : Nat → List Int
  | 0 => []
  | n + 1 => k :: intSeq (k + 1) n

/-- A solid fill of the given raw color. -/
def solidFillOf (c : RGBColor) : Paint := { type := "SOLID", color := some c }

/-- A rectangle node carrying one solid fill. -/
def rectWithFill (c : RGBColor) : Node :=
  .mk { type := "RECTANGLE", name := "r", fills := [solidFillOf c] } []

/-- A document whose two rectangles observe the two distinct semantic
danger hexes ff0000 and dc3545 of the fixed lookup table. -/
def dangerPairDoc : Node :=
  .mk { type := "DOCUMENT", name := "doc" }
    [rectWithFill ⟨1, 0, 0⟩,
     rectWithFill ⟨220 / 255, 53 / 255, 69 / 255⟩]

/-- A document whose two rectangles observe two brand-routed colors. -/
def brandPairDoc : Node :=
  .mk { type := "DOCUMENT", name := "doc" }
    [rectWithFill ⟨1, 0, 1 / 255⟩, rectWithFill ⟨0, 0, 254 / 255⟩]

/-- A document with no layout-bearing nodes, hence zero spacing
observations. -/
def emptySpacingDoc : Node := .mk { type := "DOCUMENT", name := "doc" } []

/-- A TEXT node with the given font size and numeric weight. -/
def textNodeOf (sz wt : ℚ) : Node :=
  .mk { type := "TEXT", name := "t",
        style := some { fontSize := some sz, fontWeight := some (.num wt) } } []

/-- A document holding exactly two TEXT nodes. -/
def typPairDoc (s1 w1 s2 w2 : ℚ) : Node :=
  .mk { type := "DOCUMENT", name := "doc" } [textNodeOf s1 w1, textNodeOf s2 w2]

/-- A small rectangle child at the given x position. -/
def gridRectAt (x : ℚ) : Node :=
  .mk { type := "RECTANGLE", name := "r",
        absoluteBoundingBox :=
          some { x := some x, y := some 0, width := some 10, height := some 10 } } []

/-- A document with one screen frame whose children sit at the given x
positions. -/
def gridScreenDoc (xs : List ℚ) : Node :=
  .mk { type := "DOCUMENT", name := "doc" }
    [.mk { type := "FRAME", name := "Screen1",
           absoluteBoundingBox :=
             some { x := some 0, y := some 0, width := some 300, height := some 500 } }
       (xs.map gridRectAt)]

/-- An INSTANCE node named Button Primary. -/
def buttonPrimaryNode : Node := .mk { type := "INSTANCE", name := "Button Primary" } []

/-- An INSTANCE node named Button Disabled. -/
def buttonDisabledNode : Node := .mk { type := "INSTANCE", name := "Button Disabled" } []

/-- A document holding the two button instances of the variant
scenario. -/
def c7Doc : Node :=
  .mk { type := "DOCUMENT", name := "doc" } [buttonPrimaryNode, buttonDisabledNode]

/-- An INSTANCE named Submit with the given width. -/
def c8NodeOf (w : ℚ) : Node :=
  .mk { type := "INSTANCE", name := "Submit",
        absoluteBoundingBox :=
          some { x := some 0, y := some 0, width := some w, height := some 40 } } []

/-- A document holding two Submit instances that differ in width only,
hence in fingerprint but not in cleaned name. -/
def c8Doc : Node := .mk { type := "DOCUMENT", name := "doc" } [c8NodeOf 100, c8NodeOf 200]

/-- A fingerprint function agreeing with the truncated MD5 digest of
the source on the two fingerprint tuples occurring in c8Doc: the MD5
prefixes of the two rendered tuples are af198e19 and e4bef31d, which
are distinct. -/
def c8Fp : FingerprintProps → String := fun p =>
  match p.dims with
  | some d => if d.1 = 100 then "af198e19" else "e4bef31d"
  | none => "cccc"

/-- The specification record built by _create_component_specs for one
fingerprint bucket with representative base and component id cid. -/
def specOf (base : Node) (cid : String) (insts : List Node) : ComponentSpec :=
  let ctype := determine_component_type base
  let cname := generate_component_name base cid
  { name := cname
    type := ctype
    props := extract_component_properties base.data
    variants := extract_component_variants insts
    children := extract_component_children base
    description := generate_component_description cname ctype }

/-- One fold step of _create_component_specs over a fingerprint bucket. -/
def specStep (comps : List (String × ComponentSpec)) (p : String × List Node) :
    List (String × ComponentSpec) :=
  match p.2 with
  | [] => comps
  | base :: rest =>
      dictInsert comps (generate_component_name base p.1) (specOf base p.1 (base :: rest))

/-- The generated component name of a nonempty fingerprint bucket. -/
def specNameOf : String × List Node → Option String
  | (_, []) => none
  | (cid, base :: _) => some (generate_component_name base cid)

/-- The generated component names of the nonempty buckets, in order. -/
def genNames (patterns : List (String × List Node)) : List String :=
  patterns.filterMap specNameOf

/-- The screen that _extract_screens emits when visiting one node at
one depth: present exactly for a qualifying candidate with resolvable
size. -/
def screenEmit (p : Node × Nat) : Option ScreenLayout :=
  if screenCandidate p.1.data p.2 then (create_screen_layout p.1).1 else none

/-- A child layout record sitting at the given position. -/
def chAt (x y : ℚ) : ChildLayoutInfo :=
  { name := "r", type := "rectangle", index := 0, width := 10, height := 10,
    x := x, y := y, visible := true, style := {} }

def screenAtXs (xs : List ℚ) : ScreenLayout :=
  { name := "S", type := "frame",
    size := { width := 300, height := 500, x := 0, y := 0 },
    children := xs.map (fun x => chAt x 0),
    layout := { type := "absolute" },
    description := "FRAME screen: S" }

/-- The grid record that _analyze_screen_grid computes for the screen
whose children sit at x positions 50, 150, 250. -/
def gridOut50 : GridSystem :=
  { screen := "S", x_spacing := some 100, y_spacing := none,
    columns := some 2, rows := none }

/-! ### Theorems: decimal strings and dictionary insertion -/

theorem digitChar_toNat (n : Nat) (h : n < 10) : (digitChar n).toNat = 48 + n := by
  interval_cases n <;> rfl

theorem digitsVal_append (xs : List Char) (c : Char) :
    digitsVal (xs ++ [c]) = 10 * digitsVal xs + (c.toNat - 48) := by
  simp [digitsVal, List.foldl_append]

theorem digitsVal_natStrAux (n : Nat) : digitsVal (natStrAux n) = n := by
  induction n using natStrAux.induct with
  | case1 n h =>
      rw [natStrAux]
      simp only [h, if_true]
      simp [digitsVal, digitChar_toNat n h]
  | case2 n h ih =>
      rw [natStrAux]
      simp only [h, if_false]
      rw [digitsVal_append, ih, digitChar_toNat (n % 10) (Nat.mod_lt n (by omega))]
      omega

theorem natStrAux_injective : Function.Injective natStrAux := by
  intro a b h
  have ha := digitsVal_natStrAux a
  have hb := digitsVal_natStrAux b
  rw [← ha, ← hb, h]

theorem mkBrandKey_injective : Function.Injective mkBrandKey := by
  intro a b h
  apply natStrAux_injective
  have hd : (mkBrandKey a).data = (mkBrandKey b).data := congrArg String.data h
  simpa [mkBrandKey] using hd

theorem dictInsert_of_not_mem (d : List (String × α)) (k : String) (v : α)
    (h : k ∉ d.map Prod.fst) : dictInsert d k v = d ++ [(k, v)] := by
  simp [dictInsert, h]

theorem dictInsert_snd_subset (d : List (String × α)) (k : String) (v : α)
    (P : α → Prop) (hd : ∀ p ∈ d, P p.2) (hv : P v) :
    ∀ p ∈ dictInsert d k v, P p.2 := by
  intro p hp
  unfold dictInsert at hp
  by_cases hmem : k ∈ d.map Prod.fst
  · rw [if_pos hmem] at hp
    obtain ⟨q, hq, hpq⟩ := List.mem_map.mp hp
    by_cases hq1 : q.1 = k
    · rw [if_pos hq1] at hpq; rw [← hpq]; exact hv
    · rw [if_neg hq1] at hpq; rw [← hpq]; exact hd q hq
  · rw [if_neg hmem] at hp
    rcases List.mem_append.mp hp with hmem2 | hmem2
    · exact hd p hmem2
    · rw [List.mem_singleton.mp hmem2]; exact hv

theorem dictInsert_length (d : List (String × α)) (k : String) (v : α) :
    (dictInsert d k v).length = d.length ∨
    (dictInsert d k v).length = d.length + 1 := by
  unfold dictInsert
  by_cases hmem : k ∈ d.map Prod.fst
  · left; simp [hmem]
  · right; simp [hmem]

/-! ### Theorems: the color pipeline of _process_colors -/

theorem brandEnum_length (n : Nat) (l : List Hex) : (brandEnum n l).length = l.length := by
  induction l generalizing n with
  | nil => rfl
  | cons c cs ih => simp [brandEnum, ih]

theorem brandEnum_values (n : Nat) (l : List Hex) : (brandEnum n l).map Prod.snd = l := by
  induction l generalizing n with
  | nil => rfl
  | cons c cs ih => simp [brandEnum, ih]

theorem brandEnum_key_bound (n : Nat) (l : List Hex) :
    ∀ s ∈ (brandEnum n l).map Prod.fst,
      ∃ i, n + 1 ≤ i ∧ i ≤ n + l.length ∧ s = mkBrandKey i := by
  induction l generalizing n with
  | nil => simp [brandEnum]
  | cons c cs ih =>
      intro s hs
      simp only [brandEnum, List.map_cons, List.mem_cons] at hs
      rcases hs with hs | hs
      · exact ⟨n + 1, le_refl _, by simp, hs⟩
      · obtain ⟨i, h1, h2, h3⟩ := ih (n + 1) s hs
        refine ⟨i, by omega, ?_, h3⟩
        simp only [List.length_cons]
        omega

theorem mkBrandKey_fresh (n : Nat) (l : List Hex) :
    mkBrandKey (n + l.length + 1) ∉ (brandEnum n l).map Prod.fst := by
  intro hmem
  obtain ⟨i, h1, h2, h3⟩ := brandEnum_key_bound n l _ hmem
  have := mkBrandKey_injective h3
  omega

theorem brandEnum_append (n : Nat) (l : List Hex) (c : Hex) :
    brandEnum n (l ++ [c]) = brandEnum n l ++ [(mkBrandKey (n + l.length + 1), c)] := by
  induction l generalizing n with
  | nil => simp [brandEnum]
  | cons d ds ih =>
      simp only [List.cons_append, brandEnum, List.length_cons, List.append_eq]
      rw [ih (n + 1)]
      have h : n + 1 + ds.length + 1 = n + (ds.length + 1) + 1 := by omega
      rw [h]

theorem processColorsStep_semantic_case (acc : ColorBuckets) (c : Hex) (nm : String)
    (hsl : semLookup c = some nm) :
    processColorsStep acc c = { acc with semantic := dictInsert acc.semantic nm c } := by
  simp [processColorsStep, hsl]

theorem processColorsStep_neutral_case (acc : ColorBuckets) (c : Hex)
    (hsl : semLookup c = none) (hneu : isNeutralName (categorize_color c) = true) :
    processColorsStep acc c
      = { acc with neutral := dictInsert acc.neutral (categorize_color c) c } := by
  simp [processColorsStep, hsl, hneu]

theorem processColorsStep_brand_case (acc : ColorBuckets) (c : Hex)
    (hsl : semLookup c = none) (hneu : ¬ isNeutralName (categorize_color c) = true) :
    processColorsStep acc c
      = { acc with brand := dictInsert acc.brand (mkBrandKey (acc.brand.length + 1)) c } := by
  simp [processColorsStep, hsl, hneu]

theorem processColors_brand_aux (l : List Hex) (acc : ColorBuckets) (done : List Hex)
    (hbrand : acc.brand = brandEnum 0 done) :
    (l.foldl processColorsStep acc).brand = brandEnum 0 (done ++ l.filter isBrandHex) := by
  induction l generalizing acc done with
  | nil => simpa using hbrand
  | cons c cs ih =>
      simp only [List.foldl_cons]
      cases hsl : semLookup c with
      | some nm =>
          have hbr : isBrandHex c = false := by simp [isBrandHex, hsl]
          rw [processColorsStep_semantic_case acc c nm hsl, List.filter_cons,
            if_neg (by simp [hbr])]
          exact ih _ done hbrand
      | none =>
          by_cases hneuc : isNeutralName (categorize_color c) = true
          · have hbr : isBrandHex c = false := by simp [isBrandHex, hsl, hneuc]
            rw [processColorsStep_neutral_case acc c hsl hneuc, List.filter_cons,
              if_neg (by simp [hbr])]
            exact ih _ done hbrand
          · have hbr : isBrandHex c = true := by simp [isBrandHex, hsl, hneuc]
            rw [processColorsStep_brand_case acc c hsl hneuc, List.filter_cons,
              if_pos (by simp [hbr])]
            have hlen : acc.brand.length = done.length := by rw [hbrand, brandEnum_length]
            have hfresh : mkBrandKey (acc.brand.length + 1) ∉ acc.brand.map Prod.fst := by
              rw [hlen, hbrand]
              have := mkBrandKey_fresh 0 done
              simpa using this
            have hins : dictInsert acc.brand (mkBrandKey (acc.brand.length + 1)) c
                = brandEnum 0 (done ++ [c]) := by
              rw [dictInsert_of_not_mem _ _ _ hfresh, hlen, hbrand, brandEnum_append]
              simp
            have := ih { acc with
                brand := dictInsert acc.brand (mkBrandKey (acc.brand.length + 1)) c }
              (done ++ [c]) (by simpa using hins)
            simpa using this

theorem processColors_brand (l : List Hex) :
    (processColors l).brand = brandEnum 0 (l.filter isBrandHex) := by
  have := processColors_brand_aux l ⟨[], [], []⟩ [] (by simp [brandEnum])
  simpa [processColors] using this

theorem processColors_classes_aux (P : Hex → Prop) (l : List Hex) (acc : ColorBuckets)
    (hl : ∀ c ∈ l, P c)
    (hs : ∀ p ∈ acc.semantic, (semLookup p.2).isSome ∧ P p.2)
    (hn : ∀ p ∈ acc.neutral,
        (semLookup p.2 = none ∧ isNeutralName (categorize_color p.2)) ∧ P p.2)
    (hb : ∀ p ∈ acc.brand, (isBrandHex p.2 = true) ∧ P p.2) :
    (∀ p ∈ (l.foldl processColorsStep acc).semantic, (semLookup p.2).isSome ∧ P p.2) ∧
    (∀ p ∈ (l.foldl processColorsStep acc).neutral,
        (semLookup p.2 = none ∧ isNeutralName (categorize_color p.2)) ∧ P p.2) ∧
    (∀ p ∈ (l.foldl processColorsStep acc).brand, (isBrandHex p.2 = true) ∧ P p.2) := by
  induction l generalizing acc with
  | nil =>
      simp only [List.foldl_nil]
      exact ⟨hs, hn, hb⟩
  | cons c cs ih =>
      have hPc : P c := hl c (List.mem_cons_self c cs)
      have hl2 : ∀ x ∈ cs, P x := fun x hx => hl x (List.mem_cons_of_mem c hx)
      simp only [List.foldl_cons]
      cases hsl : semLookup c with
      | some nm =>
          rw [processColorsStep_semantic_case acc c nm hsl]
          exact ih _ hl2
            (dictInsert_snd_subset _ _ _ (fun h => (semLookup h).isSome ∧ P h) hs
              ⟨by simp [hsl], hPc⟩) hn hb
      | none =>
          by_cases hneuc : isNeutralName (categorize_color c) = true
          · rw [processColorsStep_neutral_case acc c hsl hneuc]
            exact ih _ hl2 hs
              (dictInsert_snd_subset _ _ _
                (fun h => (semLookup h = none ∧ isNeutralName (categorize_color h)) ∧ P h)
                hn ⟨⟨hsl, hneuc⟩, hPc⟩) hb
          · rw [processColorsStep_brand_case acc c hsl hneuc]
            exact ih _ hl2 hs hn
              (dictInsert_snd_subset _ _ _ (fun h => (isBrandHex h = true) ∧ P h) hb
                ⟨by simp [isBrandHex, hsl, hneuc], hPc⟩)

theorem processColors_classes (l : List Hex) :
    (∀ p ∈ (processColors l).semantic, (semLookup p.2).isSome ∧ p.2 ∈ l) ∧
    (∀ p ∈ (processColors l).neutral,
        (semLookup p.2 = none ∧ isNeutralName (categorize_color p.2)) ∧ p.2 ∈ l) ∧
    (∀ p ∈ (processColors l).brand, (isBrandHex p.2 = true) ∧ p.2 ∈ l) := by
  exact processColors_classes_aux (fun c => c ∈ l) l ⟨[], [], []⟩
    (fun c hc => hc) (by simp) (by simp) (by simp)

theorem mkBrandKey_one : mkBrandKey 1 = "brand-1" := by
  simp [mkBrandKey, natStrAux, digitChar]

theorem mkBrandKey_two : mkBrandKey 2 = "brand-2" := by
  simp [mkBrandKey, natStrAux, digitChar]

/-- C2 counterexample: the tree dangerPairDoc observes the two distinct
hexes ff0000 and dc3545; both sit in the fixed semantic table under the
name danger, so whichever hex the set iteration visits second
overwrites the first under that key, and the other hex is missing from
all three maps — the union does not contain every observed hex. -/
theorem c2_color_partition_counterexample :
    (traverseDocument {} dangerPairDoc).colorValues
      = [⟨255, 0, 0⟩, ⟨220, 53, 69⟩] ∧
    processColors [⟨255, 0, 0⟩, ⟨220, 53, 69⟩]
      = ⟨[("danger", ⟨220, 53, 69⟩)], [], []⟩ ∧
    processColors [⟨220, 53, 69⟩, ⟨255, 0, 0⟩]
      = ⟨[("danger", ⟨255, 0, 0⟩)], [], []⟩ ∧
    (⟨255, 0, 0⟩ : Hex) ≠ ⟨220, 53, 69⟩ := by
  refine ⟨?_,
    by simp [processColors, processColorsStep, semLookup, semanticMap, dictInsert],
    by simp [processColors, processColorsStep, semLookup, semanticMap, dictInsert],
    by decide⟩
  norm_num [dangerPairDoc, traverseDocument, traverseDocList, extractNodeTokens, rectWithFill,
    extractColorsFromFills, solidFillOf, setAdd, rgb_to_hex, pyInt, pyUpper, pyUpperChar,
    extractSpacingFromLayout]

/-- C2 (amended): every value placed by _process_colors into a color
map is an observed hex of the class the branch tests for, the three
maps are pairwise disjoint on values, and the brand map holds exactly
the brand-routed observed hexes in iteration order; a semantic or
neutral hex can however be absent from the output when a later observed
hex shares its category name, so the union need not contain every
observed hex. -/
theorem c2_color_partition_amended :
    ∀ l : List Hex,
      (∀ p ∈ (processColors l).semantic, (semLookup p.2).isSome ∧ p.2 ∈ l) ∧
      (∀ p ∈ (processColors l).neutral,
          (semLookup p.2 = none ∧ isNeutralName (categorize_color p.2)) ∧ p.2 ∈ l) ∧
      ((processColors l).brand = brandEnum 0 (l.filter isBrandHex)) ∧
      (∀ p ∈ (processColors l).semantic, ∀ q ∈ (processColors l).neutral, p.2 ≠ q.2) ∧
      (∀ p ∈ (processColors l).semantic, ∀ q ∈ (processColors l).brand, p.2 ≠ q.2) ∧
      (∀ p ∈ (processColors l).neutral, ∀ q ∈ (processColors l).brand, p.2 ≠ q.2) := by
  intro l
  obtain ⟨hs, hn, hb⟩ := processColors_classes l
  refine ⟨hs, hn, processColors_brand l, ?_, ?_, ?_⟩
  · intro p hp q hq heq
    have h1 := (hs p hp).1
    have h2 := (hn q hq).1.1
    rw [heq, h2] at h1
    simp at h1
  · intro p hp q hq heq
    have h1 := (hs p hp).1
    have h2 := (hb q hq).1
    simp only [isBrandHex, Bool.and_eq_true, Option.isNone_iff_eq_none] at h2
    rw [heq, h2.1] at h1
    simp at h1
  · intro p hp q hq heq
    have h1 := (hn p hp).1.2
    have h2 := (hb q hq).1
    simp only [isBrandHex, Bool.and_eq_true, Bool.not_eq_true'] at h2
    rw [heq, h2.2] at h1
    simp at h1

/-- Witness for the amended C2 theorem at a concrete input. -/
theorem c2_color_partition_amended_witness :
    (semLookup (⟨255, 0, 0⟩ : Hex)).isSome = true ∧
    (⟨255, 0, 0⟩ : Hex) ∈ [(⟨255, 0, 0⟩ : Hex)] :=
  (c2_color_partition_amended [⟨255, 0, 0⟩]).1 ("danger", ⟨255, 0, 0⟩)
    (by simp [processColors, processColorsStep, semLookup, semanticMap, dictInsert])

/-- C3 counterexample: the tree brandPairDoc observes two brand-routed
hexes; enumerating the observed color set in the two possible orders
gives different outputs, because the brand-N keys are assigned by
iteration position.  Python does not fix the iteration order of a
string-keyed set across processes, so the brand numbering is not a
function of the input tree alone. -/
theorem c3_determinism_counterexample :
    (traverseDocument {} brandPairDoc).colorValues = [⟨255, 0, 1⟩, ⟨0, 0, 254⟩] ∧
    ([(⟨255, 0, 1⟩ : Hex), ⟨0, 0, 254⟩]).Perm [⟨0, 0, 254⟩, ⟨255, 0, 1⟩] ∧
    processColors [⟨255, 0, 1⟩, ⟨0, 0, 254⟩]
      ≠ processColors [⟨0, 0, 254⟩, ⟨255, 0, 1⟩] := by
  refine ⟨?_, by decide, ?_⟩
  · norm_num [brandPairDoc, traverseDocument, traverseDocList, extractNodeTokens, rectWithFill,
      extractColorsFromFills, solidFillOf, setAdd, rgb_to_hex, pyInt, pyUpper, pyUpperChar,
      extractSpacingFromLayout]
  · have h1 : processColors [(⟨255, 0, 1⟩ : Hex), ⟨0, 0, 254⟩]
        = ⟨[], [], [("brand-1", ⟨255, 0, 1⟩), ("brand-2", ⟨0, 0, 254⟩)]⟩ := by
      simp [processColors, processColorsStep, semLookup, semanticMap, categorize_color,
        isNeutralName, containsSub, containsSubList, isPrefixList, dictInsert,
        mkBrandKey_one, mkBrandKey_two]
    have h2 : processColors [(⟨0, 0, 254⟩ : Hex), ⟨255, 0, 1⟩]
        = ⟨[], [], [("brand-1", ⟨0, 0, 254⟩), ("brand-2", ⟨255, 0, 1⟩)]⟩ := by
      simp [processColors, processColorsStep, semLookup, semanticMap, categorize_color,
        isNeutralName, containsSub, containsSubList, isPrefixList, dictInsert,
        mkBrandKey_one, mkBrandKey_two]
    rw [h1, h2]
    decide

/-- C3 (amended): for a fixed iteration order of the observed color set
the extraction is a pure function, and which hexes reach the brand map
is invariant under permuting that order; but the keyed brand map itself
is not permutation-invariant — the sequential brand-N numbering follows
the iteration order, which Python leaves unspecified for sets. -/
theorem c3_determinism_amended :
    (∀ l₁ l₂ : List Hex, l₁.Perm l₂ →
        ((processColors l₁).brand.map Prod.snd).Perm
          ((processColors l₂).brand.map Prod.snd)) ∧
    (∃ l₁ l₂ : List Hex, l₁.Perm l₂ ∧ processColors l₁ ≠ processColors l₂) := by
  constructor
  · intro l₁ l₂ hperm
    rw [processColors_brand, processColors_brand, brandEnum_values, brandEnum_values]
    exact hperm.filter isBrandHex
  · refine ⟨[⟨255, 0, 1⟩, ⟨0, 0, 254⟩], [⟨0, 0, 254⟩, ⟨255, 0, 1⟩], by decide, ?_⟩
    have h1 : processColors [(⟨255, 0, 1⟩ : Hex), ⟨0, 0, 254⟩]
        = ⟨[], [], [("brand-1", ⟨255, 0, 1⟩), ("brand-2", ⟨0, 0, 254⟩)]⟩ := by
      simp [processColors, processColorsStep, semLookup, semanticMap, categorize_color,
        isNeutralName, containsSub, containsSubList, isPrefixList, dictInsert,
        mkBrandKey_one, mkBrandKey_two]
    have h2 : processColors [(⟨0, 0, 254⟩ : Hex), ⟨255, 0, 1⟩]
        = ⟨[], [], [("brand-1", ⟨0, 0, 254⟩), ("brand-2", ⟨255, 0, 1⟩)]⟩ := by
      simp [processColors, processColorsStep, semLookup, semanticMap, categorize_color,
        isNeutralName, containsSub, containsSubList, isPrefixList, dictInsert,
        mkBrandKey_one, mkBrandKey_two]
    rw [h1, h2]
    decide

/-- Witness for the amended C3 theorem at a concrete permuted pair. -/
theorem c3_determinism_amended_witness :
    ((processColors [(⟨255, 0, 1⟩ : Hex), ⟨0, 0, 254⟩]).brand.map Prod.snd).Perm
      ((processColors [(⟨0, 0, 254⟩ : Hex), ⟨255, 0, 1⟩]).brand.map Prod.snd) :=
  c3_determinism_amended.1 [⟨255, 0, 1⟩, ⟨0, 0, 254⟩] [⟨0, 0, 254⟩, ⟨255, 0, 1⟩]
    (by decide)

/-! ### Theorems: the spacing scale of detect_spacing_pattern -/

theorem spacingFold_append (uniq : List ℚ) (steps : List (String × ℚ))
    (acc : List (String × ℚ))
    (hdisj : ∀ k ∈ steps.map Prod.fst, k ∉ acc.map Prod.fst)
    (hnodup : (steps.map Prod.fst).Nodup) :
    steps.foldl (spacingStep uniq) acc
      = acc ++ steps.filterMap (fun p =>
          match closestTo p.2 uniq with
          | none => none
          | some c => if |c - p.2| < 4 then some (p.1, c) else none) := by
  induction steps generalizing acc with
  | nil => simp
  | cons s rest ih =>
      simp only [List.map_cons, List.nodup_cons] at hnodup
      have hs_not : s.1 ∉ acc.map Prod.fst := hdisj s.1 (by simp)
      have hdisj_rest : ∀ k ∈ rest.map Prod.fst, k ∉ acc.map Prod.fst :=
        fun k hk => hdisj k (by simp [hk])
      simp only [List.foldl_cons, List.filterMap_cons]
      cases hclosest : closestTo s.2 uniq with
      | none =>
          simp only [spacingStep, hclosest]
          exact ih acc hdisj_rest hnodup.2
      | some c =>
          simp only [spacingStep, hclosest]
          by_cases habs : |c - s.2| < 4
          · rw [if_pos habs, if_pos habs, dictInsert_of_not_mem _ _ _ hs_not]
            have hdisj2 : ∀ k ∈ rest.map Prod.fst,
                k ∉ (acc ++ [(s.1, c)]).map Prod.fst := by
              intro k hk
              simp only [List.map_append, List.mem_append]
              push_neg
              constructor
              · exact hdisj_rest k hk
              · simp only [List.map_cons, List.map_nil, List.mem_singleton]
                intro hks
                exact hnodup.1 (hks ▸ hk)
            rw [ih (acc ++ [(s.1, c)]) hdisj2 hnodup.2]
            simp
          · rw [if_neg habs, if_neg habs]
            exact ih acc hdisj_rest hnodup.2

theorem sortedDedup_nil : sortedDedup [] = [] := rfl

/-- C1 counterexample: a tree with zero spacing observations yields an
empty spacing map with no xs key at all, and even a nonempty
observation list whose values are all far from every canonical step
yields an empty map — canonical steps outside the tolerance are
omitted, not mapped to their canonical values. -/
theorem c1_spacing_totality_counterexample :
    (traverseDocument {} emptySpacingDoc).spacingValues = [] ∧
    (extract_all_tokens emptySpacingDoc [] []).spacing = [] ∧
    "xs" ∉ ((extract_all_tokens emptySpacingDoc [] []).spacing).map Prod.fst ∧
    processSpacing [] = [] ∧
    processSpacing [100] = [] := by
  refine ⟨?_, ?_, ?_, rfl, ?_⟩
  · simp [emptySpacingDoc, traverseDocument, traverseDocList, extractNodeTokens, pyUpper,
      pyUpperChar]
  · simp [emptySpacingDoc, extract_all_tokens, traverseDocument, traverseDocList,
      extractNodeTokens, pyUpper, pyUpperChar, processSpacing]
  · simp [emptySpacingDoc, extract_all_tokens, traverseDocument, traverseDocList,
      extractNodeTokens, pyUpper, pyUpperChar, processSpacing]
  · norm_num [processSpacing, detect_spacing_pattern, sortedDedup, insertDedup, scaleKeys,
      common_scales, spacingStep, closestTo, dictInsert]

/-- C1 (amended): the spacing map contains an entry under a step key
exactly when the closest observed value to that canonical step lies
strictly within the 4px tolerance, and then maps the key to that
closest observed value.  A step with no observation within tolerance is
omitted rather than mapped to its canonical value, and an input with
zero spacing observations yields the empty map rather than a generated
fallback scale. -/
theorem c1_spacing_totality_amended :
    ∀ (l : List ℚ) (k : String) (v : ℚ),
      (k, v) ∈ processSpacing l ↔
        ∃ e : ℚ, (k, e) ∈ scaleKeys.zip common_scales ∧
          closestTo e (sortedDedup l) = some v ∧ |v - e| < 4 := by
  intro l k v
  cases l with
  | nil =>
      simp only [processSpacing, List.isEmpty_nil, if_true, List.not_mem_nil, false_iff]
      rintro ⟨e, _, hc, _⟩
      rw [sortedDedup_nil] at hc
      exact Option.noConfusion hc
  | cons a as =>
      have hne : ((a :: as : List ℚ)).isEmpty = false := rfl
      rw [processSpacing, if_neg (by simp), detect_spacing_pattern, if_neg (by simp)]
      rw [spacingFold_append _ _ [] (by simp) (by decide)]
      simp only [List.nil_append, List.mem_filterMap]
      constructor
      · rintro ⟨⟨pk, pe⟩, hp, hfp⟩
        cases hclosest : closestTo pe (sortedDedup (a :: as)) with
        | none =>
            simp only [hclosest] at hfp
            exact Option.noConfusion hfp
        | some c =>
            simp only [hclosest] at hfp
            by_cases habs : |c - pe| < 4
            · rw [if_pos habs] at hfp
              simp only [Option.some.injEq, Prod.mk.injEq] at hfp
              exact ⟨pe, hfp.1 ▸ hp, by rw [hclosest, hfp.2], hfp.2 ▸ habs⟩
            · rw [if_neg habs] at hfp
              exact Option.noConfusion hfp
      · rintro ⟨e, he, hc, habs⟩
        refine ⟨(k, e), he, ?_⟩
        simp only [hc]
        rw [if_pos habs]

/-- Witness for the amended C1 theorem: the observation 8 lands on the
sm step. -/
theorem c1_spacing_totality_amended_witness : ("sm", (8 : ℚ)) ∈ processSpacing [8] :=
  (c1_spacing_totality_amended [8] "sm" 8).mpr
    ⟨8, by decide, by norm_num [sortedDedup, insertDedup, closestTo], by norm_num⟩

/-! ### Theorems: typography deduplication -/

theorem typographyTokenName_sixteen : typographyTokenName 16 = "body-16" := by
  have h1 : sizeCategory (16 : ℚ) = "body" := by norm_num [sizeCategory]
  have h2 : pyInt (16 : ℚ) = 16 := by norm_num [pyInt]
  rw [typographyTokenName, h1, h2]
  simp [intStr, natStr, natStrAux, digitChar]

theorem extractNodeTokens_docRoot :
    extractNodeTokens {} { type := "DOCUMENT", name := "doc" } = {} := by
  simp [extractNodeTokens, pyUpper, pyUpperChar]

theorem extractNodeTokens_text (sz wt : ℚ) (acc : TokenAcc) :
    extractNodeTokens acc
        { type := "TEXT", name := "t",
          style := some { fontSize := some sz, fontWeight := some (.num wt) } }
      = extractTypographyFromText acc { fontSize := some sz, fontWeight := some (.num wt) } := by
  simp [extractNodeTokens, pyUpper, pyUpperChar]

theorem c6_traversal (s1 w1 s2 w2 : ℚ) :
    traverseDocument {} (typPairDoc s1 w1 s2 w2)
      = extractTypographyFromText (extractTypographyFromText {}
          { fontSize := some s1, fontWeight := some (.num w1) })
          { fontSize := some s2, fontWeight := some (.num w2) } := by
  rw [typPairDoc, textNodeOf, textNodeOf]
  simp only [traverseDocument, traverseDocList]
  rw [extractNodeTokens_docRoot, extractNodeTokens_text, extractNodeTokens_text]

theorem extractTypTwice_same (s1 s2 w1 w2 : ℚ)
    (heq : typographyTokenName s1 = typographyTokenName s2) :
    (extractTypographyFromText (extractTypographyFromText {}
        { fontSize := some s1, fontWeight := some (.num w1) })
        { fontSize := some s2, fontWeight := some (.num w2) }).typography.map
        (fun p => (p.1, p.2.font_size, p.2.font_weight))
      = [(typographyTokenName s1, s1, normalize_font_weight (.num w1))] := by
  simp only [typographyTokenName] at heq
  simp [extractTypographyFromText, extract_text_properties, typographyTokenName, heq]

theorem extractTypTwice_diff (s1 s2 w1 w2 : ℚ)
    (hne : typographyTokenName s1 ≠ typographyTokenName s2) :
    (extractTypographyFromText (extractTypographyFromText {}
        { fontSize := some s1, fontWeight := some (.num w1) })
        { fontSize := some s2, fontWeight := some (.num w2) }).typography.map
        (fun p => (p.1, p.2.font_size, p.2.font_weight))
      = [(typographyTokenName s1, s1, normalize_font_weight (.num w1)),
         (typographyTokenName s2, s2, normalize_font_weight (.num w2))] := by
  simp only [typographyTokenName] at hne
  simp [extractTypographyFromText, extract_text_properties, typographyTokenName,
    Ne.symm hne]

theorem typographyTokenName_half16 : typographyTokenName (33 / 2) = "body-16" := by
  have h1 : sizeCategory (33 / 2 : ℚ) = "body" := by norm_num [sizeCategory]
  have h2 : pyInt (33 / 2 : ℚ) = 16 := by norm_num [pyInt]
  rw [typographyTokenName, h1, h2]
  simp [intStr, natStr, natStrAux, digitChar]

theorem typographyTokenName_quarter16 : typographyTokenName (67 / 4) = "body-16" := by
  have h1 : sizeCategory (67 / 4 : ℚ) = "body" := by norm_num [sizeCategory]
  have h2 : pyInt (67 / 4 : ℚ) = 16 := by norm_num [pyInt]
  rw [typographyTokenName, h1, h2]
  simp [intStr, natStr, natStrAux, digitChar]

theorem normalize_num400 : normalize_font_weight (.num 400) = 400 := by
  norm_num [normalize_font_weight, pyInt]

/-- C6 counterexample: two TEXT nodes with equal font size 16 but
different font weights 400 and 700 contribute a single typography token
carrying the first weight, because the deduplication key body-16
ignores the weight; and two TEXT nodes with different sizes 16.5 and
16.75 also collapse into a single token, because the key truncates the
size to an integer. -/
theorem c6_typography_dedup_counterexample :
    (traverseDocument {} (typPairDoc 16 400 16 700)).typography.map
        (fun p => (p.1, p.2.font_size, p.2.font_weight)) = [("body-16", 16, 400)] ∧
    (traverseDocument {} (typPairDoc (33 / 2) 400 (67 / 4) 400)).typography.map
        (fun p => (p.1, p.2.font_size, p.2.font_weight)) = [("body-16", 33 / 2, 400)] ∧
    (400 : Int) ≠ 700 ∧ (33 / 2 : ℚ) ≠ 67 / 4 := by
  refine ⟨?_, ?_, by decide, by norm_num⟩
  · rw [c6_traversal, extractTypTwice_same 16 16 400 700 rfl, typographyTokenName_sixteen,
      normalize_num400]
  · rw [c6_traversal,
      extractTypTwice_same (33 / 2) (67 / 4) 400 400
        (typographyTokenName_half16.trans typographyTokenName_quarter16.symm),
      typographyTokenName_half16, normalize_num400]

/-- C6 (amended): in the token extractor, typography tokens are
deduplicated by the token name, the size category joined with the
truncated font size — a key that depends on font_size alone.  Two TEXT
nodes whose names collide contribute a single token that keeps the
first node's size and weight even when the weights differ; two nodes
with distinct names contribute two tokens.  (The parallel extractor in
extract_design_system.py does deduplicate by the exact pair; see the
dsDedupTypography development.) -/
theorem c6_typography_dedup_amended :
    ∀ (s1 s2 w1 w2 : ℚ),
      (typographyTokenName s1 = typographyTokenName s2 →
        (extractTypographyFromText (extractTypographyFromText {}
            { fontSize := some s1, fontWeight := some (.num w1) })
            { fontSize := some s2, fontWeight := some (.num w2) }).typography.map
            (fun p => (p.1, p.2.font_size, p.2.font_weight))
          = [(typographyTokenName s1, s1, normalize_font_weight (.num w1))]) ∧
      (typographyTokenName s1 ≠ typographyTokenName s2 →
        (extractTypographyFromText (extractTypographyFromText {}
            { fontSize := some s1, fontWeight := some (.num w1) })
            { fontSize := some s2, fontWeight := some (.num w2) }).typography.map
            (fun p => (p.1, p.2.font_size, p.2.font_weight))
          = [(typographyTokenName s1, s1, normalize_font_weight (.num w1)),
             (typographyTokenName s2, s2, normalize_font_weight (.num w2))]) := by
  intro s1 s2 w1 w2
  exact ⟨extractTypTwice_same s1 s2 w1 w2, extractTypTwice_diff s1 s2 w1 w2⟩

/-- Witness for the amended C6 theorem: equal sizes with different
weights merge into one token with the first weight. -/
theorem c6_typography_dedup_amended_witness :
    (extractTypographyFromText (extractTypographyFromText {}
        { fontSize := some 16, fontWeight := some (.num 400) })
        { fontSize := some 16, fontWeight := some (.num 700) }).typography.map
        (fun p => (p.1, p.2.font_size, p.2.font_weight))
      = [(typographyTokenName 16, 16, normalize_font_weight (.num 400))] :=
  (c6_typography_dedup_amended 16 16 400 700).1 rfl

theorem dsDedupTypography_pairs (entries : List DsTypEntry) (acc : List DsTypEntry)
    (seen : List (ℚ × ℚ)) (hseen : acc.map (fun e => (e.fontSize, e.fontWeight)) = seen)
    (hnodup : seen.Nodup) :
    ((entries.foldl (fun st e =>
        if (e.fontSize, e.fontWeight) ∈ st.2 then st
        else (st.1 ++ [e], st.2 ++ [(e.fontSize, e.fontWeight)])) (acc, seen)).1.map
        (fun e => (e.fontSize, e.fontWeight))).Nodup := by
  induction entries generalizing acc seen with
  | nil => simpa [hseen] using hnodup
  | cons e rest ih =>
      simp only [List.foldl_cons]
      by_cases hmem : (e.fontSize, e.fontWeight) ∈ seen
      · rw [if_pos hmem]
        exact ih acc seen hseen hnodup
      · rw [if_neg hmem]
        refine ih (acc ++ [e]) (seen ++ [(e.fontSize, e.fontWeight)]) ?_ ?_
        · simp [hseen]
        · refine List.Nodup.append hnodup (by simp) ?_
          intro a ha hb
          rw [List.mem_singleton] at hb
          exact hmem (hb ▸ ha)

/-- The duplicated extractor in extract_design_system.py deduplicates by
the exact (fontSize, fontWeight) pair: the kept entries have pairwise
distinct pairs, so two text entries with equal size but different
weight survive as two distinct entries there. -/
theorem dsDedupTypography_pair_nodup (entries : List DsTypEntry) :
    ((dsDedupTypography entries).map (fun e => (e.fontSize, e.fontWeight))).Nodup := by
  unfold dsDedupTypography
  exact dsDedupTypography_pairs entries [] [] (by simp) (by simp)

/-! ### Theorems: variant-name precedence -/

/-- C9 counterexample: the name primary-sm contains sm but is assigned
primary, because the primary clause precedes the small clause; the
claim that any name containing sm is assigned small is false. -/
theorem c9_variant_precedence_counterexample :
    create_variant_name { name := "primary-sm" } = "primary" ∧
    containsSub (pyLower "primary-sm") "sm" = true ∧
    ("primary" : String) ≠ "small" := by decide

/-- C9 (amended): the variant name follows the fixed precedence chain
primary/main, secondary/alt, outline/ghost, small/sm, large/lg, hover,
active/pressed, disabled, default over substring matches of the
lowercased name: each class applies exactly when one of its keywords
occurs and no keyword of an earlier class does; in particular a name
containing sm is assigned small only when no earlier-class keyword
occurs in it. -/
theorem c9_variant_precedence_amended :
    ∀ d : NodeData,
      (containsSub (pyLower d.name) "primary" = true ∨
          containsSub (pyLower d.name) "main" = true →
        create_variant_name d = "primary") ∧
      (containsSub (pyLower d.name) "primary" = false →
        containsSub (pyLower d.name) "main" = false →
        (containsSub (pyLower d.name) "secondary" = true ∨
          containsSub (pyLower d.name) "alt" = true) →
        create_variant_name d = "secondary") ∧
      (containsSub (pyLower d.name) "primary" = false →
        containsSub (pyLower d.name) "main" = false →
        containsSub (pyLower d.name) "secondary" = false →
        containsSub (pyLower d.name) "alt" = false →
        (containsSub (pyLower d.name) "outline" = true ∨
          containsSub (pyLower d.name) "ghost" = true) →
        create_variant_name d = "outline") ∧
      (containsSub (pyLower d.name) "primary" = false →
        containsSub (pyLower d.name) "main" = false →
        containsSub (pyLower d.name) "secondary" = false →
        containsSub (pyLower d.name) "alt" = false →
        containsSub (pyLower d.name) "outline" = false →
        containsSub (pyLower d.name) "ghost" = false →
        (containsSub (pyLower d.name) "small" = true ∨
          containsSub (pyLower d.name) "sm" = true) →
        create_variant_name d = "small") ∧
      (containsSub (pyLower d.name) "primary" = false →
        containsSub (pyLower d.name) "main" = false →
        containsSub (pyLower d.name) "secondary" = false →
        containsSub (pyLower d.name) "alt" = false →
        containsSub (pyLower d.name) "outline" = false →
        containsSub (pyLower d.name) "ghost" = false →
        containsSub (pyLower d.name) "small" = false →
        containsSub (pyLower d.name) "sm" = false →
        (containsSub (pyLower d.name) "large" = true ∨
          containsSub (pyLower d.name) "lg" = true) →
        create_variant_name d = "large") ∧
      (containsSub (pyLower d.name) "primary" = false →
        containsSub (pyLower d.name) "main" = false →
        containsSub (pyLower d.name) "secondary" = false →
        containsSub (pyLower d.name) "alt" = false →
        containsSub (pyLower d.name) "outline" = false →
        containsSub (pyLower d.name) "ghost" = false →
        containsSub (pyLower d.name) "small" = false →
        containsSub (pyLower d.name) "sm" = false →
        containsSub (pyLower d.name) "large" = false →
        containsSub (pyLower d.name) "lg" = false →
        containsSub (pyLower d.name) "hover" = true →
        create_variant_name d = "hover") ∧
      (containsSub (pyLower d.name) "primary" = false →
        containsSub (pyLower d.name) "main" = false →
        containsSub (pyLower d.name) "secondary" = false →
        containsSub (pyLower d.name) "alt" = false →
        containsSub (pyLower d.name) "outline" = false →
        containsSub (pyLower d.name) "ghost" = false →
        containsSub (pyLower d.name) "small" = false →
        containsSub (pyLower d.name) "sm" = false →
        containsSub (pyLower d.name) "large" = false →
        containsSub (pyLower d.name) "lg" = false →
        containsSub (pyLower d.name) "hover" = false →
        (containsSub (pyLower d.name) "active" = true ∨
          containsSub (pyLower d.name) "pressed" = true) →
        create_variant_name d = "active") ∧
      (containsSub (pyLower d.name) "primary" = false →
        containsSub (pyLower d.name) "main" = false →
        containsSub (pyLower d.name) "secondary" = false →
        containsSub (pyLower d.name) "alt" = false →
        containsSub (pyLower d.name) "outline" = false →
        containsSub (pyLower d.name) "ghost" = false →
        containsSub (pyLower d.name) "small" = false →
        containsSub (pyLower d.name) "sm" = false →
        containsSub (pyLower d.name) "large" = false →
        containsSub (pyLower d.name) "lg" = false →
        containsSub (pyLower d.name) "hover" = false →
        containsSub (pyLower d.name) "active" = false →
        containsSub (pyLower d.name) "pressed" = false →
        containsSub (pyLower d.name) "disabled" = true →
        create_variant_name d = "disabled") ∧
      (containsSub (pyLower d.name) "primary" = false →
        containsSub (pyLower d.name) "main" = false →
        containsSub (pyLower d.name) "secondary" = false →
        containsSub (pyLower d.name) "alt" = false →
        containsSub (pyLower d.name) "outline" = false →
        containsSub (pyLower d.name) "ghost" = false →
        containsSub (pyLower d.name) "small" = false →
        containsSub (pyLower d.name) "sm" = false →
        containsSub (pyLower d.name) "large" = false →
        containsSub (pyLower d.name) "lg" = false →
        containsSub (pyLower d.name) "hover" = false →
        containsSub (pyLower d.name) "active" = false →
        containsSub (pyLower d.name) "pressed" = false →
        containsSub (pyLower d.name) "disabled" = false →
        create_variant_name d = "default") := by
  intro d
  refine ⟨?_, ?_, ?_, ?_, ?_, ?_, ?_, ?_, ?_⟩
  · rintro (h | h) <;> simp [create_variant_name, h]
  · intro h1 h2 h
    rcases h with h | h <;> simp [create_variant_name, h1, h2, h]
  · intro h1 h2 h3 h4 h
    rcases h with h | h <;> simp [create_variant_name, h1, h2, h3, h4, h]
  · intro h1 h2 h3 h4 h5 h6 h
    rcases h with h | h <;> simp [create_variant_name, h1, h2, h3, h4, h5, h6, h]
  · intro h1 h2 h3 h4 h5 h6 h7 h8 h
    rcases h with h | h <;> simp [create_variant_name, h1, h2, h3, h4, h5, h6, h7, h8, h]
  · intro h1 h2 h3 h4 h5 h6 h7 h8 h9 h10 h
    simp [create_variant_name, h1, h2, h3, h4, h5, h6, h7, h8, h9, h10, h]
  · intro h1 h2 h3 h4 h5 h6 h7 h8 h9 h10 h11 h
    rcases h with h | h <;>
      simp [create_variant_name, h1, h2, h3, h4, h5, h6, h7, h8, h9, h10, h11, h]
  · intro h1 h2 h3 h4 h5 h6 h7 h8 h9 h10 h11 h12 h13 h
    simp [create_variant_name, h1, h2, h3, h4, h5, h6, h7, h8, h9, h10, h11, h12, h13, h]
  · intro h1 h2 h3 h4 h5 h6 h7 h8 h9 h10 h11 h12 h13 h14
    simp [create_variant_name, h1, h2, h3, h4, h5, h6, h7, h8, h9, h10, h11, h12, h13, h14]

/-- Witness for the amended C9 theorem: a name containing both primary
and disabled is assigned primary, and a name containing sm with no
earlier keyword is assigned small. -/
theorem c9_variant_precedence_amended_witness :
    create_variant_name { name := "Primary Disabled" } = "primary" ∧
    create_variant_name { name := "prism" } = "small" :=
  ⟨(c9_variant_precedence_amended { name := "Primary Disabled" }).1 (Or.inl (by decide)),
   (c9_variant_precedence_amended { name := "prism" }).2.2.2.1 (by decide) (by decide)
     (by decide) (by decide) (by decide) (by decide) (Or.inr (by decide))⟩

/-! ### C7: the two-button variant scenario -/

/-- The document root of the C7 scenario is not itself a component node. -/
theorem c7_root_not_comp :
    is_component_node (.mk { type := "DOCUMENT", name := "doc" }
      [.mk { type := "INSTANCE", name := "Button Primary" } [],
       .mk { type := "INSTANCE", name := "Button Disabled" } []]) = false := by
  decide

/-- The Button Primary INSTANCE qualifies as a component node. -/
theorem c7_n1_comp :
    is_component_node (.mk { type := "INSTANCE", name := "Button Primary" } []) = true := by
  decide

/-- The Button Disabled INSTANCE qualifies as a component node. -/
theorem c7_n2_comp :
    is_component_node (.mk { type := "INSTANCE", name := "Button Disabled" } []) = true := by
  decide

/-- Under a fingerprint collision of the two buttons, identification of
the C7 document yields a single bucket holding both instances in
document order. -/
theorem c7_identify (fp : FingerprintProps → String)
    (hfp : fp (fingerprintProps buttonPrimaryNode.data)
      = fp (fingerprintProps buttonDisabledNode.data)) :
    identifyNode fp [] c7Doc
      = [(fp (fingerprintProps buttonPrimaryNode.data),
          [buttonPrimaryNode, buttonDisabledNode])] := by
  simp only [buttonPrimaryNode, buttonDisabledNode, Node.data] at hfp ⊢
  simp only [c7Doc, buttonPrimaryNode, buttonDisabledNode, identifyNode, identifyList,
    c7_root_not_comp, c7_n1_comp, c7_n2_comp, Node.data, Bool.false_eq_true, if_false,
    if_true, dictAppend, hfp]
  simp

/-- The generated component name of the Button Primary representative is
its cleaned node name, whatever the component id. -/
theorem c7_gen_name (k : String) :
    generate_component_name buttonPrimaryNode k = "button-primary" := by
  have hcn : clean_component_name buttonPrimaryNode.data.name = "button-primary" := by
    decide
  rw [generate_component_name, hcn]
  rw [if_neg (by decide)]

/-- The variants extracted from the two-button bucket are named primary
and disabled, in that order. -/
theorem c7_variants_names :
    (extract_component_variants [buttonPrimaryNode, buttonDisabledNode]).map
      ComponentVariant.name = ["primary", "disabled"] := by
  decide

/-- C7: if the two INSTANCE nodes named Button Primary and Button
Disabled receive identical fingerprints, parse_all_components produces
exactly one catalog entry, and its variants list holds exactly two
variants named primary and disabled. -/
theorem c7_variant_scenario (fp : FingerprintProps → String)
    (hfp : fp (fingerprintProps buttonPrimaryNode.data)
      = fp (fingerprintProps buttonDisabledNode.data)) :
    (parse_all_components fp c7Doc).length = 1
      ∧ (parse_all_components fp c7Doc).map (fun e => e.variants.map ComponentVariant.name)
          = [["primary", "disabled"]] := by
  rw [parse_all_components, c7_identify fp hfp]
  simp only [create_component_specs, List.foldl_cons, List.foldl_nil, c7_gen_name,
    dictInsert, List.map_nil, List.not_mem_nil, if_neg, build_component_output,
    List.map_cons, List.length_cons, List.length_nil]
  refine ⟨rfl, ?_⟩
  show [(extract_component_variants [buttonPrimaryNode, buttonDisabledNode]).map
    ComponentVariant.name] = [["primary", "disabled"]]
  rw [c7_variants_names]

/-- Witness for C7 at the constant fingerprint function, which collides
on every input. -/
theorem c7_variant_scenario_witness :
    (parse_all_components (fun _ => "fp") c7Doc).length = 1
      ∧ (parse_all_components (fun _ => "fp") c7Doc).map
          (fun e => e.variants.map ComponentVariant.name) = [["primary", "disabled"]] :=
  c7_variant_scenario (fun _ => "fp") rfl

/-! ### C8: component-spec lifecycle and name-keyed storage -/

/-- Membership in a Python-set insertion. -/
theorem setAdd_mem [DecidableEq α] (l : List α) (x y : α) :
    y ∈ setAdd l x ↔ y ∈ l ∨ y = x := by
  unfold setAdd
  by_cases h : x ∈ l
  · rw [if_pos h]
    constructor
    · exact Or.inl
    · rintro (hy | hy)
      · exact hy
      · exact hy ▸ h
  · rw [if_neg h]; simp

/-- Set insertion preserves distinctness. -/
theorem setAdd_nodup [DecidableEq α] (l : List α) (x : α) (h : l.Nodup) :
    (setAdd l x).Nodup := by
  unfold setAdd
  by_cases hx : x ∈ l
  · rwa [if_pos hx]
  · rw [if_neg hx]
    exact List.Nodup.append h (List.nodup_singleton x)
      (by intro a ha hb; rw [List.mem_singleton] at hb; exact hx (hb ▸ ha))

/-- Membership after folding set insertions. -/
theorem foldl_setAdd_mem [DecidableEq α] (l : List α) (acc : List α) (y : α) :
    y ∈ l.foldl setAdd acc ↔ y ∈ acc ∨ y ∈ l := by
  induction l generalizing acc with
  | nil => simp
  | cons a as ih =>
      rw [List.foldl_cons, ih, setAdd_mem]
      simp [or_assoc]

/-- Folding set insertions preserves distinctness. -/
theorem foldl_setAdd_nodup [DecidableEq α] (l : List α) (acc : List α) (h : acc.Nodup) :
    (l.foldl setAdd acc).Nodup := by
  induction l generalizing acc with
  | nil => exact h
  | cons a as ih => exact ih _ (setAdd_nodup _ _ h)

/-- Folding distinct fresh elements appends them in order. -/
theorem foldl_setAdd_of_disjoint [DecidableEq α] (l : List α) (acc : List α)
    (hn : l.Nodup) (hd : ∀ x ∈ l, x ∉ acc) : l.foldl setAdd acc = acc ++ l := by
  induction l generalizing acc with
  | nil => simp
  | cons a as ih =>
      have ha : a ∉ acc := hd a (by simp)
      have hn2 : as.Nodup := (List.nodup_cons.mp hn).2
      have hd2 : ∀ x ∈ as, x ∉ acc ++ [a] := by
        intro x hx
        simp only [List.mem_append, List.mem_singleton]
        rintro (hx2 | hx2)
        · exact hd x (by simp [hx]) hx2
        · exact (List.nodup_cons.mp hn).1 (hx2 ▸ hx)
      rw [List.foldl_cons, show setAdd acc a = acc ++ [a] from by simp [setAdd, ha],
        ih (acc ++ [a]) hn2 hd2]
      simp

/-- Dictionary assignment inserts its key as a set insertion on the key list. -/
theorem dictInsert_keys (d : List (String × α)) (k : String) (v : α) :
    (dictInsert d k v).map Prod.fst = setAdd (d.map Prod.fst) k := by
  unfold dictInsert setAdd
  by_cases h : k ∈ d.map Prod.fst
  · rw [if_pos h, if_pos h, List.map_map]
    refine List.map_congr_left ?_
    intro p _
    by_cases hp : p.1 = k
    · simp [hp]
    · simp [hp]
  · rw [if_neg h, if_neg h]; simp

set_option maxHeartbeats 2000000 in
/-- The specification pass is the fold of specStep. -/
theorem create_component_specs_eq (patterns : List (String × List Node)) :
    create_component_specs patterns = patterns.foldl specStep [] := by
  unfold create_component_specs
  refine List.foldl_ext _ _ _ ?_
  intro comps p hp
  cases p with
  | mk k l =>
    cases l with
    | nil => rfl
    | cons base rest => rfl

/-- The keys of the specification dictionary are the set-fold of the generated component names. -/
theorem specStep_keys (patterns : List (String × List Node))
    (acc : List (String × ComponentSpec)) :
    (patterns.foldl specStep acc).map Prod.fst
      = (genNames patterns).foldl setAdd (acc.map Prod.fst) := by
  induction patterns generalizing acc with
  | nil => rfl
  | cons p ps ih =>
      cases p with
      | mk k l =>
        cases l with
        | nil =>
            rw [List.foldl_cons, show specStep acc (k, []) = acc from rfl, ih]
            rfl
        | cons base rest =>
            rw [List.foldl_cons,
              show specStep acc (k, base :: rest)
                = dictInsert acc (generate_component_name base k)
                    (specOf base k (base :: rest)) from rfl,
              ih, dictInsert_keys]
            rfl

/-- Every nonempty bucket contributes exactly one generated name. -/
theorem genNames_length (patterns : List (String × List Node))
    (h : ∀ p ∈ patterns, p.2 ≠ []) :
    (genNames patterns).length = patterns.length := by
  induction patterns with
  | nil => rfl
  | cons p ps ih =>
      cases p with
      | mk k l =>
        cases l with
        | nil => exact absurd rfl (h (k, []) (by simp))
        | cons base rest =>
            have h2 := ih (fun q hq => h q (by simp [hq]))
            simp only [genNames, List.filterMap_cons, specNameOf, List.length_cons] at h2 ⊢
            omega


/-- The C8 document root is not a component node. -/
theorem c8_root_nc :
    is_component_node (.mk { type := "DOCUMENT", name := "doc" }
      [.mk { type := "INSTANCE", name := "Submit",
             absoluteBoundingBox :=
               some { x := some 0, y := some 0, width := some 100, height := some 40 } } [],
       .mk { type := "INSTANCE", name := "Submit",
             absoluteBoundingBox :=
               some { x := some 0, y := some 0, width := some 200, height := some 40 } } []])
      = false := by
  decide

/-- The width-100 Submit instance qualifies as a component node. -/
theorem c8_n100 :
    is_component_node
      (.mk { type := "INSTANCE", name := "Submit",
             absoluteBoundingBox :=
               some { x := some 0, y := some 0, width := some 100, height := some 40 } } [])
      = true := by
  decide

/-- The width-200 Submit instance qualifies as a component node. -/
theorem c8_n200 :
    is_component_node
      (.mk { type := "INSTANCE", name := "Submit",
             absoluteBoundingBox :=
               some { x := some 0, y := some 0, width := some 200, height := some 40 } } [])
      = true := by
  decide

/-- The fingerprint of the width-100 Submit instance. -/
theorem c8_fpA :
    c8Fp (fingerprintProps
        { type := "INSTANCE", name := "Submit",
          absoluteBoundingBox :=
            some { x := some 0, y := some 0, width := some 100, height := some 40 } })
      = "af198e19" := by
  decide

/-- The fingerprint of the width-200 Submit instance. -/
theorem c8_fpB :
    c8Fp (fingerprintProps
        { type := "INSTANCE", name := "Submit",
          absoluteBoundingBox :=
            some { x := some 0, y := some 0, width := some 200, height := some 40 } })
      = "e4bef31d" := by
  decide

/-- Identification of the C8 document yields two distinct fingerprint buckets. -/
theorem c8_identify :
    identifyNode c8Fp [] c8Doc
      = [("af198e19", [c8NodeOf 100]), ("e4bef31d", [c8NodeOf 200])] := by
  simp only [c8Doc, c8NodeOf, identifyNode, identifyList, c8_root_nc, c8_n100, c8_n200,
    Bool.false_eq_true, if_false, if_true, c8_fpA, c8_fpB, dictAppend]
  simp

/-- C8 counterexample: the two Submit instances of c8Doc carry distinct
fingerprints, yet the catalog holds a single entry, because the later
specification overwrites the earlier one under their shared generated
name submit. -/
theorem c8_lifecycle_counterexample :
    (identifyNode c8Fp [] c8Doc).length = 2
      ∧ (parse_all_components c8Fp c8Doc).length = 1 := by
  constructor
  · rw [c8_identify]
    rfl
  · rw [parse_all_components, c8_identify]
    decide

/-- C8 amended: one ComponentSpec is stored per distinct generated
component name: the spec dictionary has distinct keys, its key set is
exactly the generated names of the nonempty fingerprint buckets, its
size equals the number of nonempty buckets whenever those names are
pairwise distinct (each nonempty bucket contributing exactly one name),
and building the catalog deletes nothing. -/
theorem c8_lifecycle_amended :
    (∀ patterns : List (String × List Node),
        ((create_component_specs patterns).map Prod.fst).Nodup
          ∧ ∀ k, k ∈ (create_component_specs patterns).map Prod.fst ↔ k ∈ genNames patterns)
      ∧ (∀ patterns : List (String × List Node), (genNames patterns).Nodup →
          (create_component_specs patterns).length = (genNames patterns).length)
      ∧ (∀ patterns : List (String × List Node), (∀ p ∈ patterns, p.2 ≠ []) →
          (genNames patterns).length = patterns.length)
      ∧ ∀ comps : List (String × ComponentSpec),
          (build_component_output comps).length = comps.length := by
  refine ⟨?_, ?_, ?_, ?_⟩
  · intro patterns
    rw [create_component_specs_eq, specStep_keys patterns []]
    constructor
    · exact foldl_setAdd_nodup _ _ List.nodup_nil
    · intro k
      rw [foldl_setAdd_mem]
      simp
  · intro patterns hn
    have hk : (create_component_specs patterns).map Prod.fst
        = (genNames patterns).foldl setAdd [] := by
      rw [create_component_specs_eq, specStep_keys patterns []]
      rfl
    have hlen : (create_component_specs patterns).length
        = ((create_component_specs patterns).map Prod.fst).length :=
      (List.length_map _ _).symm
    rw [hlen, hk, foldl_setAdd_of_disjoint _ _ hn (by simp)]
    simp
  · exact genNames_length
  · intro comps
    simp [build_component_output]

/-- Witness for the amended C8 theorem on a single one-instance
bucket. -/
theorem c8_lifecycle_amended_witness :
    ((genNames [("f1", [c8NodeOf 100])]).Nodup ∧
      (create_component_specs [("f1", [c8NodeOf 100])]).length
        = (genNames [("f1", [c8NodeOf 100])]).length)
      ∧ (genNames [("f1", [c8NodeOf 100])]).length = [("f1", [c8NodeOf 100])].length :=
  ⟨⟨by decide, c8_lifecycle_amended.2.1 [("f1", [c8NodeOf 100])] (by decide)⟩,
   c8_lifecycle_amended.2.2.1 [("f1", [c8NodeOf 100])]
     (by intro p hp; rw [List.mem_singleton] at hp; subst hp; simp)⟩


/-! ### C4: screen inclusion -/

mutual

/-- The screens collected below one node are exactly the emitted
screens of its depth-annotated pre-order listing. -/
theorem c4_node : ∀ (n : Node) (depth : Nat),
    (extractScreensNode n depth).1 = (preorderWithDepth n depth).filterMap screenEmit
  | .mk d children, depth => by
      have hrest := c4_list children (depth + 1)
      simp only [extractScreensNode, preorderWithDepth, List.filterMap_cons]
      cases hsc : screenCandidate d depth with
      | false =>
          simp only [Bool.false_eq_true, if_false, List.nil_append]
          rw [show screenEmit (Node.mk d children, depth) = none from by
            simp [screenEmit, Node.data, hsc]]
          exact hrest
      | true =>
          simp only [if_true]
          cases hcl : create_screen_layout (.mk d children) with
          | mk os obs =>
            rw [show screenEmit (Node.mk d children, depth) = os from by
              simp [screenEmit, Node.data, hsc, hcl]]
            cases os with
            | none => simpa using hrest
            | some s => simpa using hrest

/-- The list version of c4_node. -/
theorem c4_list : ∀ (l : List Node) (depth : Nat),
    (extractScreensList l depth).1 = (preorderListWithDepth l depth).filterMap screenEmit
  | [], _ => by simp [extractScreensList, preorderListWithDepth]
  | c :: cs, depth => by
      have h1 := c4_node c depth
      have h2 := c4_list cs depth
      simp only [extractScreensList, preorderListWithDepth, List.filterMap_append, h1, h2]

end


/-- C4: no node at depth 0 qualifies as a screen (in particular a
FRAME at tree depth 0 is never emitted); the screens of
analyze_all_layouts are exactly one emission per qualifying visited
node in pre-order, each emitted at most once via filterMap; and
create_screen_layout yields a screen exactly when a size is resolvable,
carrying that resolved size, never a zeroed one. -/
theorem c4_screen_inclusion :
    (∀ d : NodeData, screenCandidate d 0 = false)
      ∧ (∀ doc : Node,
          (analyze_all_layouts doc).screens
            = (preorderWithDepth doc 0).filterMap screenEmit)
      ∧ ∀ n : Node,
          ((create_screen_layout n).1).map ScreenLayout.size = extract_size_info n.data := by
  refine ⟨?_, ?_, ?_⟩
  · intro d
    simp [screenCandidate]
  · intro doc
    exact c4_node doc 0
  · intro n
    cases h : extract_size_info n.data with
    | none => simp [create_screen_layout, h]
    | some sz => simp [create_screen_layout, h]


/-! ### C5 and C10: grid detection and division safety -/

/-- Length of an arithmetic progression. -/
theorem arithProg_length (x0 step : ℚ) (n : Nat) : (arithProg x0 step n).length = n := by
  induction n generalizing x0 with
  | zero => rfl
  | succ m ih => simp [arithProg, ih]

/-- Members of a 100-step progression dominate its start. -/
theorem arithProg_lb (x0 : ℚ) (n : Nat) : ∀ y ∈ arithProg x0 100 n, x0 ≤ y := by
  induction n generalizing x0 with
  | zero => simp [arithProg]
  | succ m ih =>
      intro y hy
      rw [arithProg, List.mem_cons] at hy
      rcases hy with rfl | hy
      · exact le_refl y
      · have := ih (x0 + 100) y hy
        linarith

/-- A 100-step progression is sorted. -/
theorem arithProg_pairwise (x0 : ℚ) (n : Nat) :
    (arithProg x0 100 n).Pairwise (· ≤ ·) := by
  induction n generalizing x0 with
  | zero => simp [arithProg]
  | succ m ih =>
      rw [arithProg]
      refine List.Pairwise.cons ?_ (ih (x0 + 100))
      intro y hy
      have := arithProg_lb (x0 + 100) m y hy
      linarith

/-- Inserting a maximal element appends it. -/
theorem insertSorted_append (x : ℚ) (acc : List ℚ) (h : ∀ y ∈ acc, ¬ x < y) :
    insertSorted id acc x = acc ++ [x] := by
  induction acc with
  | nil => rfl
  | cons y ys ih =>
      rw [insertSorted]
      simp only [id_eq]
      rw [if_neg (h y (by simp))]
      rw [ih (fun z hz => h z (by simp [hz]))]
      simp

/-- Insertion sort leaves a sorted input unchanged, relative to a compatible accumulator. -/
theorem foldl_insertSorted_sorted (l : List ℚ) (acc : List ℚ)
    (h1 : ∀ a ∈ l, ∀ y ∈ acc, ¬ a < y) (h2 : l.Pairwise (· ≤ ·)) :
    l.foldl (insertSorted id) acc = acc ++ l := by
  induction l generalizing acc with
  | nil => simp
  | cons a as ih =>
      rw [List.foldl_cons, insertSorted_append a acc (h1 a (by simp)),
        ih (acc ++ [a]) ?_ (List.Pairwise.of_cons h2)]
      · simp
      · intro b hb y hy
        rw [List.mem_append, List.mem_singleton] at hy
        rcases hy with hy | rfl
        · exact h1 b (by simp [hb]) y hy
        · have := (List.pairwise_cons.mp h2).1 b hb
          exact not_lt.mpr this

/-- Sorting a sorted list of rationals is the identity. -/
theorem sortByKey_id_sorted (l : List ℚ) (h : l.Pairwise (· ≤ ·)) : sortByKey id l = l := by
  have := foldl_insertSorted_sorted l [] (by simp) h
  simpa [sortByKey] using this

/-- The deltas of a 100-step progression are all 100. -/
theorem consecutiveDeltas_arithProg (x0 : ℚ) (n : Nat) :
    consecutiveDeltas (arithProg x0 100 (n + 1)) = List.replicate n 100 := by
  induction n generalizing x0 with
  | zero => simp [arithProg, consecutiveDeltas]
  | succ m ih =>
      have h2 : arithProg x0 100 (m + 2) = x0 :: arithProg (x0 + 100) 100 (m + 1) := by
        rw [arithProg]
      rw [h2]
      rw [show arithProg (x0 + 100) 100 (m + 1)
        = (x0 + 100) :: arithProg (x0 + 100 + 100) 100 m from by rw [arithProg]]
      rw [consecutiveDeltas]
      rw [← show arithProg (x0 + 100) 100 (m + 1)
        = (x0 + 100) :: arithProg (x0 + 100 + 100) 100 m from by rw [arithProg]]
      rw [ih (x0 + 100)]
      have : x0 + 100 - x0 = 100 := by ring
      rw [this, List.replicate_succ]

/-- Clustering equal spacings accumulates one count. -/
theorem foldl_groupSpacing_replicate (n k : Nat) :
    (List.replicate n (100 : ℚ)).foldl groupSpacing [(100, k)] = [(100, k + n)] := by
  induction n generalizing k with
  | zero => simp
  | succ m ih =>
      rw [List.replicate_succ, List.foldl_cons]
      rw [show groupSpacing [((100 : ℚ), k)] 100 = [(100, k + 1)] from by
        rw [groupSpacing]
        norm_num]
      rw [ih (k + 1)]
      have hh : k + 1 + m = k + (m + 1) := by omega
      rw [hh]

/-- A spacing far from every cluster key starts a new cluster. -/
theorem groupSpacing_far (acc : List (ℚ × Nat)) (s : ℚ)
    (h : ∀ p ∈ acc, ¬ |s - p.1| < 2) : groupSpacing acc s = acc ++ [(s, 1)] := by
  induction acc with
  | nil => rfl
  | cons p ps ih =>
      rw [groupSpacing, if_neg (h p (by simp)), ih (fun q hq => h q (by simp [hq]))]
      simp

/-- Pairwise-far spacings only ever form singleton clusters. -/
theorem foldl_groupSpacing_far (l : List ℚ) (acc : List (ℚ × Nat))
    (hacc : ∀ p ∈ acc, p.2 = 1)
    (hfar : ∀ p ∈ acc, ∀ s ∈ l, ¬ |s - p.1| < 2)
    (hl : l.Pairwise (fun a b => 2 ≤ |a - b|)) :
    ∀ p ∈ l.foldl groupSpacing acc, p.2 = 1 := by
  induction l generalizing acc with
  | nil => exact hacc
  | cons s ss ih =>
      rw [List.foldl_cons, groupSpacing_far acc s (fun p hp => hfar p hp s (by simp))]
      refine ih (acc ++ [(s, 1)]) ?_ ?_ (List.Pairwise.of_cons hl)
      · intro p hp
        rw [List.mem_append, List.mem_singleton] at hp
        rcases hp with hp | rfl
        · exact hacc p hp
        · rfl
      · intro p hp t ht
        rw [List.mem_append, List.mem_singleton] at hp
        rcases hp with hp | rfl
        · exact hfar p hp t (by simp [ht])
        · have := (List.pairwise_cons.mp hl).1 t ht
          rw [abs_sub_comm] at this
          exact not_lt.mpr this

/-- Cluster keys come from existing keys or the inserted spacing. -/
theorem groupSpacing_keys (acc : List (ℚ × Nat)) (s : ℚ) :
    ∀ p ∈ groupSpacing acc s, p.1 ∈ acc.map Prod.fst ∨ p.1 = s := by
  induction acc with
  | nil =>
      intro p hp
      rw [groupSpacing, List.mem_singleton] at hp
      right
      rw [hp]
  | cons q qs ih =>
      intro p hp
      rw [groupSpacing] at hp
      by_cases hc : |s - q.1| < 2
      · rw [if_pos hc, List.mem_cons] at hp
        rcases hp with rfl | hp
        · left; simp
        · left
          rw [List.map_cons, List.mem_cons]
          right
          exact List.mem_map_of_mem Prod.fst hp
      · rw [if_neg hc, List.mem_cons] at hp
        rcases hp with rfl | hp
        · left; simp
        · rcases ih p hp with h2 | h2
          · left
            rw [List.map_cons, List.mem_cons]
            right
            exact h2
          · right; exact h2

/-- Every cluster key is an observed spacing. -/
theorem foldl_groupSpacing_keys (l : List ℚ) (acc : List (ℚ × Nat)) :
    ∀ p ∈ l.foldl groupSpacing acc, p.1 ∈ acc.map Prod.fst ∨ p.1 ∈ l := by
  induction l generalizing acc with
  | nil =>
      intro p hp
      left
      exact List.mem_map_of_mem Prod.fst hp
  | cons s ss ih =>
      intro p hp
      rw [List.foldl_cons] at hp
      rcases ih (groupSpacing acc s) p hp with h | h
      · obtain ⟨q, hq, hq1⟩ := List.mem_map.mp h
        rcases groupSpacing_keys acc s q hq with h2 | h2
        · left; rw [← hq1]; exact h2
        · right; rw [← hq1, h2]; simp
      · right; simp [h]

/-- The selected cluster is one of the clusters. -/
theorem bestSpacing_mem (cs : List (ℚ × Nat)) (b : ℚ × Nat)
    (h : bestSpacing cs = some b) : b ∈ cs := by
  match cs with
  | [] => exact absurd h (by simp [bestSpacing])
  | c :: rest =>
      rw [bestSpacing, Option.some_inj] at h
      subst h
      induction rest generalizing c with
      | nil => simp
      | cons p ps ih =>
          rw [List.foldl_cons]
          by_cases hc : p.2 > c.2
          · rw [if_pos hc]
            have := ih p
            rw [List.mem_cons] at this ⊢
            rcases this with h | h
            · right; rw [List.mem_cons]; left; exact h
            · right; rw [List.mem_cons]; right; exact h
          · rw [if_neg hc]
            have := ih c
            rw [List.mem_cons] at this ⊢
            rcases this with h | h
            · left; exact h
            · right; rw [List.mem_cons]; right; exact h


/-- The let-free form of _find_regular_spacing. -/
theorem find_regular_spacing_eq (positions : List ℚ) :
    find_regular_spacing positions
      = if positions.length < 3 then none
        else if ((consecutiveDeltas (sortByKey id positions)).filter
            (fun s => s > 2)).length < 2 then none
        else
          match bestSpacing (((consecutiveDeltas (sortByKey id positions)).filter
              (fun s => s > 2)).foldl groupSpacing []) with
          | none => none
          | some best => if best.2 ≥ 2 then some best.1 else none := rfl

/-- Any reported spacing exceeds the tolerance. -/
theorem find_regular_spacing_gt2 (positions : List ℚ) (s : ℚ)
    (h : find_regular_spacing positions = some s) : s > 2 := by
  rw [find_regular_spacing_eq] at h
  by_cases h3 : positions.length < 3
  · rw [if_pos h3] at h
    exact absurd h (by simp)
  · rw [if_neg h3] at h
    by_cases h2 : ((consecutiveDeltas (sortByKey id positions)).filter
        (fun t => t > 2)).length < 2
    · rw [if_pos h2] at h
      exact absurd h (by simp)
    · rw [if_neg h2] at h
      cases hb : bestSpacing (((consecutiveDeltas (sortByKey id positions)).filter
          (fun t => t > 2)).foldl groupSpacing []) with
      | none => rw [hb] at h; exact absurd h (by simp)
      | some best =>
          rw [hb] at h
          simp only at h
          by_cases hc : best.2 ≥ 2
          · rw [if_pos hc, Option.some_inj] at h
            subst h
            have hmem := bestSpacing_mem _ _ hb
            rcases foldl_groupSpacing_keys _ [] best hmem with hk | hk
            · simp at hk
            · have := List.of_mem_filter hk
              simpa using this
          · rw [if_neg hc] at h
            exact absurd h (by simp)

/-- An exact 100-step progression of at least three positions yields spacing 100. -/
theorem c5_arith_spacing (x0 : ℚ) (n : Nat) (h : 3 ≤ n) :
    find_regular_spacing (arithProg x0 100 n) = some 100 := by
  obtain ⟨m, rfl⟩ : ∃ m, n = m + 3 := ⟨n - 3, by omega⟩
  have hsort : sortByKey id (arithProg x0 100 (m + 3)) = arithProg x0 100 (m + 3) :=
    sortByKey_id_sorted _ (arithProg_pairwise _ _)
  have hdelta : consecutiveDeltas (arithProg x0 100 (m + 3)) = List.replicate (m + 2) 100 :=
    consecutiveDeltas_arithProg x0 (m + 2)
  have hfilter : (List.replicate (m + 2) (100 : ℚ)).filter (fun s => s > 2)
      = List.replicate (m + 2) (100 : ℚ) := by
    rw [List.filter_replicate]
    norm_num
  rw [find_regular_spacing_eq, if_neg (by rw [arithProg_length]; omega), hsort, hdelta,
    hfilter]
  rw [if_neg (by rw [List.length_replicate]; omega)]
  rw [show (List.replicate (m + 2) (100 : ℚ)).foldl groupSpacing [] = [(100, m + 2)] from ?_]
  · rw [bestSpacing]
    simp only [List.foldl_nil]
    rw [if_pos (by omega)]
  · rw [List.replicate_succ, List.foldl_cons]
    rw [show groupSpacing [] (100 : ℚ) = [(100, 1)] from rfl]
    rw [foldl_groupSpacing_replicate]
    have hh : 1 + (m + 1) = m + 2 := by omega
    rw [hh]

/-- Pairwise-far deltas yield no spacing. -/
theorem c5_jitter_none (positions : List ℚ)
    (h : (consecutiveDeltas (sortByKey id positions)).Pairwise fun a b => 2 ≤ |a - b|) :
    find_regular_spacing positions = none := by
  rw [find_regular_spacing_eq]
  by_cases h3 : positions.length < 3
  · rw [if_pos h3]
  · rw [if_neg h3]
    by_cases h2 : ((consecutiveDeltas (sortByKey id positions)).filter
        (fun t => t > 2)).length < 2
    · rw [if_pos h2]
    · rw [if_neg h2]
      have hpw : (((consecutiveDeltas (sortByKey id positions)).filter
          (fun t => t > 2))).Pairwise (fun a b => 2 ≤ |a - b|) := h.filter _
      cases hb : bestSpacing (((consecutiveDeltas (sortByKey id positions)).filter
          (fun t => t > 2)).foldl groupSpacing []) with
      | none => rfl
      | some best =>
          have hmem := bestSpacing_mem _ _ hb
          have hone := foldl_groupSpacing_far _ [] (by simp) (by simp) hpw best hmem
          simp only
          rw [if_neg (by omega)]

/-- The let-free form of _analyze_screen_grid. -/
theorem analyze_screen_grid_eq (screen : ScreenLayout) :
    analyze_screen_grid screen
      = if screen.children.length < 2 then none
        else if qTruthy (find_regular_spacing (screen.children.map ChildLayoutInfo.x))
            ∨ qTruthy (find_regular_spacing (screen.children.map ChildLayoutInfo.y)) then
          some { screen := screen.name
                 x_spacing := find_regular_spacing (screen.children.map ChildLayoutInfo.x)
                 y_spacing := find_regular_spacing (screen.children.map ChildLayoutInfo.y)
                 columns :=
                   if qTruthy (find_regular_spacing
                       (screen.children.map ChildLayoutInfo.x)) then
                     some (((screen.children.map ChildLayoutInfo.x).map (fun x =>
                       pyRound (x / (find_regular_spacing
                         (screen.children.map ChildLayoutInfo.x)).getD 0))).dedup.length)
                   else none
                 rows :=
                   if qTruthy (find_regular_spacing
                       (screen.children.map ChildLayoutInfo.y)) then
                     some (((screen.children.map ChildLayoutInfo.y).map (fun y =>
                       pyRound (y / (find_regular_spacing
                         (screen.children.map ChildLayoutInfo.y)).getD 0))).dedup.length)
                   else none }
        else none := rfl

/-- A screen with no spacing on either axis gets no grid entry. -/
theorem c5_screen_jitter (screen : ScreenLayout)
    (hx : find_regular_spacing (screen.children.map ChildLayoutInfo.x) = none)
    (hy : find_regular_spacing (screen.children.map ChildLayoutInfo.y) = none) :
    analyze_screen_grid screen = none := by
  rw [analyze_screen_grid_eq, hx, hy]
  by_cases h2 : screen.children.length < 2
  · rw [if_pos h2]
  · rw [if_neg h2]
    rw [if_neg (by simp [qTruthy])]


/-- Python round is the identity on integers. -/
theorem pyRound_intCast (k : Int) : pyRound (k : ℚ) = k := by
  simp [pyRound, Int.floor_intCast]

/-- Members of a consecutive integer run dominate its start. -/
theorem intSeq_lb (k : Int) (n : Nat) : ∀ x ∈ intSeq k n, k ≤ x := by
  induction n generalizing k with
  | zero => simp [intSeq]
  | succ m ih =>
      intro x hx
      rw [intSeq, List.mem_cons] at hx
      rcases hx with rfl | hx
      · exact le_refl x
      · have := ih (k + 1) x hx
        omega

/-- A consecutive integer run has no duplicates. -/
theorem intSeq_nodup (k : Int) (n : Nat) : (intSeq k n).Nodup := by
  induction n generalizing k with
  | zero => simp [intSeq]
  | succ m ih =>
      rw [intSeq]
      refine List.Nodup.cons ?_ (ih (k + 1))
      intro hmem
      have := intSeq_lb (k + 1) m k hmem
      omega

/-- Length of a consecutive integer run. -/
theorem intSeq_length (k : Int) (n : Nat) : (intSeq k n).length = n := by
  induction n generalizing k with
  | zero => rfl
  | succ m ih => simp [intSeq, ih]

/-- Dividing an aligned 100-step progression by 100 and rounding gives consecutive integers. -/
theorem arithProg_map_round (k : Int) (n : Nat) :
    (arithProg ((k : ℚ) * 100) 100 n).map (fun x => pyRound (x / 100)) = intSeq k n := by
  induction n generalizing k with
  | zero => rfl
  | succ m ih =>
      rw [arithProg, List.map_cons]
      rw [show ((k : ℚ) * 100) / 100 = (k : ℚ) from by
        rw [mul_div_assoc]
        norm_num]
      rw [pyRound_intCast]
      rw [show (k : ℚ) * 100 + 100 = ((k + 1 : Int) : ℚ) * 100 from by push_cast; ring]
      rw [ih (k + 1), intSeq]

/-- An aligned progression has as many distinct rounded buckets as members. -/
theorem c5_aligned_columns (k : Int) (n : Nat) :
    ((arithProg ((k : ℚ) * 100) 100 n).map (fun x => pyRound (x / 100))).dedup.length
      = n := by
  rw [arithProg_map_round, List.dedup_eq_self.mpr (intSeq_nodup k n), intSeq_length]


/-- The spacing of positions 50, 150, 250 is 100. -/
theorem c5_fr_x : find_regular_spacing [(50 : ℚ), 150, 250] = some 100 := by
  norm_num [find_regular_spacing_eq, sortByKey, insertSorted, consecutiveDeltas,
    groupSpacing, bestSpacing]

/-- Three equal positions yield no spacing. -/
theorem c5_fr_0 : find_regular_spacing [(0 : ℚ), 0, 0] = none := by
  norm_num [find_regular_spacing_eq, sortByKey, insertSorted, consecutiveDeltas]

/-- The spacing of positions 0, 100, 200 is 100. -/
theorem c10_fr : find_regular_spacing [(0 : ℚ), 100, 200] = some 100 := by
  norm_num [find_regular_spacing_eq, sortByKey, insertSorted, consecutiveDeltas,
    groupSpacing, bestSpacing]

/-- Python round of one half is 0. -/
theorem pyRound_half : pyRound ((1 : ℚ)/2) = 0 := by
  have hf : ⌊(1 : ℚ)/2⌋ = 0 := by norm_num [Int.floor_eq_iff]
  rw [pyRound]
  simp only [hf]
  norm_num

/-- Python round of three halves is 2. -/
theorem pyRound_three_half : pyRound ((3 : ℚ)/2) = 2 := by
  have hf : ⌊(3 : ℚ)/2⌋ = 1 := by norm_num [Int.floor_eq_iff]
  rw [pyRound]
  simp only [hf]
  norm_num [Int.even_iff]

/-- Python round of five halves is 2. -/
theorem pyRound_five_half : pyRound ((5 : ℚ)/2) = 2 := by
  have hf : ⌊(5 : ℚ)/2⌋ = 2 := by norm_num [Int.floor_eq_iff]
  rw [pyRound]
  simp only [hf]
  norm_num [Int.even_iff]

/-- The rounded division buckets of 50, 150, 250 by 100 number two. -/
theorem c5_rounds :
    (([(50 : ℚ), 150, 250]).map (fun x => pyRound (x / 100))).dedup.length = 2 := by
  rw [List.map_cons, List.map_cons, List.map_cons, List.map_nil]
  rw [show (50 : ℚ) / 100 = 1/2 from by norm_num, pyRound_half]
  rw [show (150 : ℚ) / 100 = 3/2 from by norm_num, pyRound_three_half]
  rw [show (250 : ℚ) / 100 = 5/2 from by norm_num, pyRound_five_half]
  decide


/-- The grid record of the 50, 150, 250 screen. -/
theorem c5_grid_eval :
    analyze_screen_grid (screenAtXs [50, 150, 250]) = some gridOut50 := by
  have hxs : (screenAtXs [50, 150, 250]).children.map ChildLayoutInfo.x
      = [50, 150, 250] := rfl
  have hys : (screenAtXs [50, 150, 250]).children.map ChildLayoutInfo.y = [0, 0, 0] := rfl
  have hq : qTruthy (some (100 : ℚ)) = true := by decide
  rw [analyze_screen_grid_eq, if_neg (by decide), hxs, hys, c5_fr_x, c5_fr_0]
  rw [if_pos (Or.inl hq), hq]
  simp only [if_true, qTruthy, Option.getD_some, Bool.false_eq_true, if_false]
  rw [show (fun x => pyRound (x / (100 : ℚ)))
    = fun x => pyRound (x / 100) from rfl]
  rw [c5_rounds]
  rfl

/-- C5 counterexample: a screen with three children at x positions 50,
150, 250 (step exactly 100, three distinct positions) gets a grid entry
with x_spacing 100 but columns 2, because round(0.5) = 0 and
round(1.5) = round(2.5) = 2 under Python bankers rounding merge two
division buckets. -/
theorem c5_grid_threshold_counterexample :
    ((screenAtXs [50, 150, 250]).children.map ChildLayoutInfo.x).dedup.length = 3
      ∧ analyze_screen_grid (screenAtXs [50, 150, 250]) = some gridOut50
      ∧ gridOut50.x_spacing = some 100 ∧ gridOut50.columns = some 2 := by
  refine ⟨by decide, c5_grid_eval, rfl, rfl⟩

/-- A screen whose x spacing is 100 gets a grid entry with that spacing and the rounded-bucket column count. -/
theorem c5_screen_aligned (screen : ScreenLayout) (h2 : 2 ≤ screen.children.length)
    (hx : find_regular_spacing (screen.children.map ChildLayoutInfo.x) = some 100) :
    ∃ g, analyze_screen_grid screen = some g ∧ g.x_spacing = some 100
      ∧ g.columns = some (((screen.children.map ChildLayoutInfo.x).map
          (fun x => pyRound (x / 100))).dedup.length) := by
  have hq : qTruthy (some (100 : ℚ)) = true := by decide
  rw [analyze_screen_grid_eq, if_neg (by omega), hx]
  rw [if_pos (Or.inl hq), hq]
  refine ⟨_, rfl, rfl, ?_⟩
  simp only [if_true, Option.getD_some]

/-- C5 amended: at least three positions stepping by exactly 100 yield
spacing 100; the reported columns value counts distinct round(x/100)
buckets, which equals the number of children when the progression
starts at a multiple of 100 but can be smaller otherwise; positions
whose consecutive sorted deltas pairwise differ by at least the 2px
tolerance yield no spacing, and a screen with no spacing on either axis
gets no grid entry. -/
theorem c5_grid_threshold_amended :
    (∀ (x0 : ℚ) (n : Nat), 3 ≤ n → find_regular_spacing (arithProg x0 100 n) = some 100)
      ∧ (∀ (k : Int) (n : Nat),
          ((arithProg ((k : ℚ) * 100) 100 n).map
            (fun x => pyRound (x / 100))).dedup.length = n)
      ∧ (∀ screen : ScreenLayout, 2 ≤ screen.children.length →
          find_regular_spacing (screen.children.map ChildLayoutInfo.x) = some 100 →
          ∃ g, analyze_screen_grid screen = some g ∧ g.x_spacing = some 100
            ∧ g.columns = some (((screen.children.map ChildLayoutInfo.x).map
                (fun x => pyRound (x / 100))).dedup.length))
      ∧ (∀ positions : List ℚ,
          ((consecutiveDeltas (sortByKey id positions)).Pairwise fun a b => 2 ≤ |a - b|) →
            find_regular_spacing positions = none)
      ∧ ∀ screen : ScreenLayout,
          find_regular_spacing (screen.children.map ChildLayoutInfo.x) = none →
          find_regular_spacing (screen.children.map ChildLayoutInfo.y) = none →
          analyze_screen_grid screen = none :=
  ⟨c5_arith_spacing, c5_aligned_columns, c5_screen_aligned, c5_jitter_none,
   c5_screen_jitter⟩

/-- Witness for the amended C5 theorem: the progression 0, 100, 200 and
the jitter list 7, 8, 20. -/
theorem c5_grid_threshold_amended_witness :
    find_regular_spacing (arithProg 0 100 3) = some 100
      ∧ ((arithProg ((0 : ℚ) * 100) 100 3).map
          (fun x => pyRound (x / 100))).dedup.length = 3
      ∧ (∃ g, analyze_screen_grid (screenAtXs [0, 100, 200]) = some g
          ∧ g.x_spacing = some 100
          ∧ g.columns = some ((((screenAtXs [0, 100, 200]).children.map
              ChildLayoutInfo.x).map (fun x => pyRound (x / 100))).dedup.length))
      ∧ find_regular_spacing [(7 : ℚ), 8, 20] = none
      ∧ analyze_screen_grid (screenAtXs [0, 0]) = none :=
  ⟨c5_grid_threshold_amended.1 0 3 (by decide),
   by
     have h := c5_grid_threshold_amended.2.1 (0 : Int) 3
     simpa using h,
   c5_grid_threshold_amended.2.2.1 (screenAtXs [0, 100, 200]) (by decide)
     (by rw [show (screenAtXs [0, 100, 200]).children.map ChildLayoutInfo.x
           = [0, 100, 200] from rfl]
         exact c10_fr),
   c5_grid_threshold_amended.2.2.2.1 [(7 : ℚ), 8, 20] (by
     rw [show sortByKey id [(7 : ℚ), 8, 20] = [7, 8, 20] from by
       norm_num [sortByKey, insertSorted]]
     rw [show consecutiveDeltas [(7 : ℚ), 8, 20] = [1, 12] from by
       norm_num [consecutiveDeltas]]
     refine List.Pairwise.cons ?_ (List.pairwise_singleton _ _)
     intro b hb
     rw [List.mem_singleton] at hb
     subst hb
     norm_num),
   c5_grid_threshold_amended.2.2.2.2 (screenAtXs [0, 0])
     (by rw [show (screenAtXs [0, 0]).children.map ChildLayoutInfo.x = [0, 0] from rfl]
         rw [find_regular_spacing_eq]
         rw [if_pos (by decide)])
     (by rw [show (screenAtXs [0, 0]).children.map ChildLayoutInfo.y = [0, 0] from rfl]
         rw [find_regular_spacing_eq]
         rw [if_pos (by decide)])⟩

/-- C10: any spacing reported by _find_regular_spacing exceeds the 2px
tolerance, so it is nonzero; in every emitted grid record the spacings
are the per-axis _find_regular_spacing results, columns and rows are
none exactly when the corresponding spacing is none, and every present
spacing is nonzero, so round(x / spacing) never divides by zero. -/
theorem c10_division_safety :
    (∀ (positions : List ℚ) (s : ℚ), find_regular_spacing positions = some s → s > 2)
      ∧ ∀ (screen : ScreenLayout) (g : GridSystem), analyze_screen_grid screen = some g →
          (g.x_spacing = find_regular_spacing (screen.children.map ChildLayoutInfo.x)
            ∧ g.y_spacing = find_regular_spacing (screen.children.map ChildLayoutInfo.y))
          ∧ (g.columns = none ↔ g.x_spacing = none)
          ∧ (g.rows = none ↔ g.y_spacing = none)
          ∧ (∀ s, g.x_spacing = some s → s ≠ 0)
          ∧ ∀ s, g.y_spacing = some s → s ≠ 0 := by
  refine ⟨find_regular_spacing_gt2, ?_⟩
  intro screen g h
  rw [analyze_screen_grid_eq] at h
  by_cases hlen : screen.children.length < 2
  · rw [if_pos hlen] at h
    exact absurd h (by simp)
  · rw [if_neg hlen] at h
    by_cases hc : qTruthy (find_regular_spacing (screen.children.map ChildLayoutInfo.x))
        ∨ qTruthy (find_regular_spacing (screen.children.map ChildLayoutInfo.y))
    · rw [if_pos hc, Option.some_inj] at h
      subst h
      refine ⟨⟨rfl, rfl⟩, ?_, ?_, ?_, ?_⟩
      · cases hx : find_regular_spacing (screen.children.map ChildLayoutInfo.x) with
        | none => simp [hx, qTruthy]
        | some s =>
            have hs : s ≠ 0 := by
              have := find_regular_spacing_gt2 _ _ hx
              intro h0
              rw [h0] at this
              norm_num at this
            simp [hx, qTruthy, hs]
      · cases hy : find_regular_spacing (screen.children.map ChildLayoutInfo.y) with
        | none => simp [hy, qTruthy]
        | some s =>
            have hs : s ≠ 0 := by
              have := find_regular_spacing_gt2 _ _ hy
              intro h0
              rw [h0] at this
              norm_num at this
            simp [hy, qTruthy, hs]
      · intro s hs
        have := find_regular_spacing_gt2 _ _ hs
        intro h0
        rw [h0] at this
        norm_num at this
      · intro s hs
        have := find_regular_spacing_gt2 _ _ hs
        intro h0
        rw [h0] at this
        norm_num at this
    · rw [if_neg hc] at h
      exact absurd h (by simp)

/-- Witness for C10 at the progression 0, 100, 200 and the concrete
grid record of the 50, 150, 250 screen. -/
theorem c10_division_safety_witness :
    ((100 : ℚ) > 2)
      ∧ (gridOut50.columns = none ↔ gridOut50.x_spacing = none)
      ∧ (gridOut50.rows = none ↔ gridOut50.y_spacing = none) :=
  ⟨c10_division_safety.1 [(0 : ℚ), 100, 200] 100 c10_fr,
   (c10_division_safety.2 (screenAtXs [50, 150, 250]) gridOut50 c5_grid_eval).2.1,
   (c10_division_safety.2 (screenAtXs [50, 150, 250]) gridOut50 c5_grid_eval).2.2.1⟩


end FigmaExtract
